import Mathlib

/-! The yle-dl rtmpdump plugin (`plugin/yle.c`): a shallow embedding

The plugin hooks two callbacks into librtmp (`ConnectYLE`, `ExecuteInvokedMethod`)
and implements the YLE Areena handshake: a challenge/response step, a clip
descriptor request, and the parsing of the descriptor reply.

Conventions of the embedding

* A NUL-terminated C string is the list of its characters before the terminator.
* A `char *` that points into such a string is the suffix it points to; a pointer
  difference `q - p` is `p.length - q.length`, and `p += n` is `p.drop n`.
* An `AVal` (pointer plus length) is the list of the `av_len` characters it spans.
* The string of a decoded AMF property lies inside the packet buffer without a
  terminator: besides its `av_len` characters the property carries the characters that
  follow them in memory, which a scan from `av_val` reaches.
* `NULL` results are `none`.
-/

set_option autoImplicit false

namespace YleDl

/-! ## C library string primitives -/

/-- Contents of a C string, or the bytes spanned by an `AVal`. -/
abbrev AVal := List Char

/-- Model of `strstr(hay, needle)`: the suffix of `hay` that starts at the first
occurrence of `needle`, `none` when there is no occurrence. -/
def strstr : List Char → List Char → Option (List Char)
  | [], needle => if needle = [] then some [] else none
  | c :: t, needle => if needle <+: c :: t then some (c :: t) else strstr t needle

/-- Model of `strchr(s, c)` for a character `c` other than NUL: the suffix of `s` that
starts at the first `c`, `none` when `c` does not occur. -/
def strchr : List Char → Char → Option (List Char)
  | [], _ => none
  | x :: t, c => if x = c then some (x :: t) else strchr t c

/-- Model of `AVMATCH(a1, a2)`: equal lengths and equal bytes. -/
def AVMATCH (a1 a2 : AVal) : Bool := decide (a1 = a2)

/-! ## The challenge response -/

/-- Value of a mathematical integer stored in a 64-bit two's complement `long`. -/
def wrapLong (x : Int) : Int := (x + 2 ^ 63) % 2 ^ 64 - 2 ^ 63

/-- The values a `long` can hold. -/
def inLong (x : Int) : Prop := -(2 ^ 63) ≤ x ∧ x < 2 ^ 63

instance (x : Int) : Decidable (inLong x) := by unfold inLong; infer_instance

/-- Model of `((long)AMFProp_GetNumber(prop) + 447537687) % 6834253`, where `c` is the
value of the cast `(long)AMFProp_GetNumber(prop)`.  The sum is a `long` sum, and `%`
is the C remainder, which truncates towards zero. -/
def authResponse (c : Int) : Int := Int.tmod (wrapLong (c + 447537687)) 6834253

/-! ## ParseYLEPlaypath -/

/-- The literal `"://"`. -/
def schemeSep : List Char := [':', '/', '/']

/-- Model of `ParseYLEPlaypath(url, &host, &app, &playpath)`: `none` is the `FALSE` return,
`some (host, app, playpath)` the `TRUE` return with the three output `AVal`s. -/
def ParseYLEPlaypath (url : List Char) : Option (AVal × AVal × AVal) :=
  match strstr url schemeSep with
  | none => none
  | some p0 =>
    let p := p0.drop 3
    match strchr p '/' with
    | none => none
    | some slash =>
      let host := p.take (p.length - slash.length)
      let p1 := slash.drop 1
      match strchr p1 '/' with
      | none => none
      | some slash1 =>
        let app := p1.take (p1.length - slash1.length)
        let p2 := slash1.drop 1
        some (host, app, p2.take p2.length)

/-! ## GetXMLNodeContent -/

/-- The literal `"&amp;"`. -/
def ampEntity : List Char := ['&', 'a', 'm', 'p', ';']

/-- The loop `while ((p = strstr(p, "&amp;"))) { len = strlen(p+5); p = memmove(p+1, p+5, len);
p[len] = 0; }` over the buffer `ret = done ++ p`, where `done` is the part of the buffer in
front of the pointer `p`.  One iteration finds the entity at `q`, keeps the characters
between `p` and `q` and the `'&'` at `q`, moves the tail `q+5` up to `q+1` and continues
at `q+1`.  The first argument bounds the number of iterations; `none` means the bound was
reached before the loop left. -/
def unescapeLoop : Nat → List Char → List Char → Option (List Char)
  | 0, _, _ => none
  | fuel + 1, done, p =>
    match strstr p ampEntity with
    | none => some (done ++ p)
    | some q =>
      let tail := q.drop 5
      unescapeLoop fuel (done ++ p.take (p.length - q.length) ++ q.take 1) tail

/-- The unescaping loop of `GetXMLNodeContent` started with `p = ret`. -/
def unescapeAmp (ret : List Char) : Option (List Char) :=
  unescapeLoop (ret.length + 1) [] ret

/-- Model of `GetXMLNodeContent(xmldoc, node)`; `xmldoc = none` is the `NULL` document and the
result `none` is the `NULL` return. -/
def GetXMLNodeContent (xmldoc : Option (List Char)) (node : List Char) : Option (List Char) :=
  match xmldoc with
  | none => none
  | some doc =>
    let node2 := '<' :: node
    match strstr doc node2 with
    | none => none
    | some p0 =>
      let p := p0.drop node2.length
      match strchr p '>' with
      | none => none
      | some gt =>
        let p1 := gt.drop 1
        match strchr p1 '<' with
        | none => none
        | some pend =>
          let contentlen := p1.length - pend.length
          let ret := p1.take contentlen
          unescapeAmp ret

/-- Reference replacement: every left-to-right non-overlapping occurrence of `"&amp;"`
becomes `"&"`; the produced `'&'` is not looked at again. -/
def replaceAmp : List Char → List Char
  | '&' :: 'a' :: 'm' :: 'p' :: ';' :: rest => '&' :: replaceAmp rest
  | c :: rest => c :: replaceAmp rest
  | [] => []

/-! ## librtmp data: AMF objects, the transport, the session record -/

/-- What the code gets when it reads the member `p_vu.p_number` of a property whose union
holds no number (a string's pointer, an object's count, or nothing at all): the value of
the cast of that double to `long`, and whether the double differs from 0.  For a decoded
string the pointer is not `NULL`, so `nonzero` is true. -/
structure RawNumber where
  asLong : Int
  nonzero : Bool
deriving DecidableEq, Repr

/-- An AMF property as decoded by librtmp.  AMF numbers are doubles; only their integral
values are represented.  A decoded string lies inside the packet buffer and is not
NUL-terminated: `s` are its `av_len` bytes and `behind` are the bytes that follow them in
memory, as far as a scan for NUL gets.  `u` is what a read of `p_vu.p_number` finds in a
property that holds no number.  `invalid` is librtmp's `AMFProp_Invalid`. -/
inductive AMFObjectProperty where
  | number (p_name : AVal) (v : Int)
  | boolean (p_name : AVal) (b : Bool)
  | string (p_name : AVal) (s : AVal) (behind : List Char) (u : RawNumber)
  | object (p_name : AVal) (o : List AMFObjectProperty) (u : RawNumber)
  | null (p_name : AVal) (u : RawNumber)
  | invalid

/-- An `AMFObject`: its `o_num` properties in order. -/
abbrev AMFObject := List AMFObjectProperty

/-- Model of librtmp `AMF_CountProp`. -/
def AMF_CountProp (obj : AMFObject) : Nat := obj.length

/-- Model of librtmp `AMF_GetProp(obj, NULL, nIndex)`: out of range gives `AMFProp_Invalid`. -/
def AMF_GetProp (obj : AMFObject) (nIndex : Nat) : AMFObjectProperty :=
  obj.getD nIndex AMFObjectProperty.invalid

/-- Model of librtmp `AMFProp_GetName`. -/
def AMFProp_GetName : AMFObjectProperty → AVal
  | .number n _ => n
  | .boolean n _ => n
  | .string n _ _ _ => n
  | .object n _ _ => n
  | .null n _ => n
  | .invalid => []

/-- The cast `(long)d` of a double with the integral value `v`.  Outside the range of `long`
the conversion is undefined in C; the value here is the one of the x86-64 conversion
instruction, `LONG_MIN`. -/
def castLong (v : Int) : Int := if inLong v then v else -(2 ^ 63)

/-- Model of librtmp `AMFProp_GetNumber`, which returns `p_vu.p_number` whatever the type of
the property, followed by the cast to `long`.  Booleans are stored as the numbers 0 and
1; `AMFProp_Invalid` is zero-initialised. -/
def AMFProp_GetNumber : AMFObjectProperty → Int
  | .number _ v => castLong v
  | .boolean _ b => if b then 1 else 0
  | .string _ _ _ u => u.asLong
  | .object _ _ u => u.asLong
  | .null _ u => u.asLong
  | .invalid => 0

/-- Model of librtmp `AMFProp_GetBoolean`: `p_vu.p_number != 0`, whatever the type of the
property. -/
def AMFProp_GetBoolean : AMFObjectProperty → Int
  | .number _ v => if v ≠ 0 then 1 else 0
  | .boolean _ b => if b then 1 else 0
  | .string _ _ _ u => if u.nonzero then 1 else 0
  | .object _ _ u => if u.nonzero then 1 else 0
  | .null _ u => if u.nonzero then 1 else 0
  | .invalid => 0

/-- Model of librtmp `AMFProp_GetString`: the `av_len` bytes of the `AVal` of a string
property; `none` is the empty `AVal` with a `NULL` pointer that any other property
gives. -/
def AMFProp_GetString : AMFObjectProperty → Option AVal
  | .string _ s _ _ => some s
  | _ => none

/-- Model of librtmp `AMFProp_GetObject`. -/
def AMFProp_GetObject : AMFObjectProperty → AMFObject
  | .object _ o _ => o
  | _ => []

/-- The C string that starts at `av_val`: the bytes of the `AVal` up to the first NUL. -/
def cstr (a : AVal) : List Char := a.takeWhile (fun c => c ≠ Char.ofNat 0)

/-- The C string a callee sees when it is handed the `av_val` of the `AVal` that
`AMFProp_GetString` gives, without the length: the bytes of the string and the bytes
behind it in memory, up to the first NUL.  `none` is the `NULL` pointer. -/
def AMFProp_GetStringVal : AMFObjectProperty → Option (List Char)
  | .string _ s behind _ => some (cstr (s ++ behind))
  | _ => none

/-- One unit written into a packet body: a single byte, an AMF string (`AMF_EncodeString`)
or an AMF number (`AMF_EncodeNumber`). -/
inductive AMFItem where
  | byte (b : Nat)
  | string (s : AVal)
  | number (v : Int)
deriving DecidableEq, Repr

/-- The fields of `RTMPPacket` the plugin fills in, except `m_nTimeStamp`, which is the
clock reading `RTMP_GetTime()`. -/
structure RTMPPacket where
  m_nChannel : Nat
  m_headerType : Nat
  m_packetType : Nat
  m_nInfoField2 : Nat
  m_hasAbsTimestamp : Nat
  m_nBodySize : Nat
  m_body : List AMFItem
deriving DecidableEq, Repr

/-- A call into the transport that puts a message on the wire. -/
inductive Sent where
  | serverBW
  | createStream
  | packet (p : RTMPPacket)
deriving DecidableEq, Repr

/-- The fields of `r->Link` the plugin reads or writes. -/
structure RTMP_LNK where
  hostname : AVal
  playpath : AVal
  lFlags : Nat
deriving DecidableEq, Repr

/-- The transport `RTMP *r`: its link fields, the messages handed to it so far (oldest
first) and the result its send functions report. -/
structure RTMP where
  Link : RTMP_LNK
  sent : List Sent
  sendOk : Bool
deriving DecidableEq, Repr

/-- The session record `struct YLENGStream` (callback handles left out). -/
structure YLENGStream where
  yleAuth : Int
  clipID : AVal
  tvFeeRequired : Int
  tvFeeActivated : Int
  locatedInBroadcastTerritory : Int
deriving DecidableEq, Repr

/-- Return codes of a librtmp plugin callback. -/
inductive RTMPCallbackResult where
  | RTMP_CB_NOT_HANDLED
  | RTMP_CB_SUCCESS
  | RTMP_CB_ERROR_STOP
deriving DecidableEq, Repr

open RTMPCallbackResult

/-- Model of librtmp `RTMP_SendServerBW`. -/
def RTMP_SendServerBW (r : RTMP) : Bool × RTMP :=
  (r.sendOk, { r with sent := r.sent ++ [Sent.serverBW] })

/-- Model of librtmp `RTMP_SendCreateStream`. -/
def RTMP_SendCreateStream (r : RTMP) : Bool × RTMP :=
  (r.sendOk, { r with sent := r.sent ++ [Sent.createStream] })

/-- Model of librtmp `RTMP_SendPacket(r, &packet, FALSE)`. -/
def RTMP_SendPacket (r : RTMP) (packet : RTMPPacket) : Bool × RTMP :=
  (r.sendOk, { r with sent := r.sent ++ [Sent.packet packet] })

/-- Value of `RTMP_MAX_HEADER_SIZE` in librtmp. -/
def RTMP_MAX_HEADER_SIZE : Nat := 18

/-- Value of `RTMP_LF_LIVE` in librtmp. -/
def RTMP_LF_LIVE : Nat := 2

/-- Value of `AMF_NULL` in librtmp. -/
def AMF_NULL : Nat := 5

/-- Model of librtmp `AMF_EncodeString(output, outend, bv)` on offsets into `pbuf`: the
offset behind the written string, `none` for the `NULL` return.  The bounds test of
librtmp is `(bv->av_len < 65536 && output + 1 + 2 + bv->av_len > outend) ||
output + 1 + 4 + bv->av_len > outend`: its second half applies to short strings too, so
a string is refused unless there is room for a 4-byte length in front of it. -/
def AMF_EncodeString (output outend : Nat) (bv : AVal) : Option Nat :=
  if (bv.length < 65536 ∧ output + 1 + 2 + bv.length > outend)
      ∨ output + 1 + 4 + bv.length > outend then none
  else if bv.length < 65536 then some (output + 1 + 2 + bv.length)
  else some (output + 1 + 4 + bv.length)

/-- Model of librtmp `AMF_EncodeNumber(output, outend, dVal)` on offsets into `pbuf`. -/
def AMF_EncodeNumber (output outend : Nat) : Option Nat :=
  if output + 1 + 8 > outend then none else some (output + 1 + 8)

/-! ## The message names (`SAVC`) -/

def av_connect : AVal := "connect".toList
def av_authenticationDetails : AVal := "authenticationDetails".toList
def av_randomNumberAuthenticated : AVal := "randomNumberAuthenticated".toList
def av_rpcResult : AVal := "rpcResult".toList
def av_rpcError : AVal := "rpcError".toList
def av_locatedInBroadcastTerritory : AVal := "locatedInBroadcastTerritory".toList
def av_randomAuth : AVal := "randomAuth".toList
def av_tvFeeActivated : AVal := "tvFeeActivated".toList
def av_authenticateRandomNumber : AVal := "authenticateRandomNumber".toList
def av_requestData : AVal := "requestData".toList
def av_e0 : AVal := "e0".toList

/-! ## The protocol steps

A step that writes through the encoding pointer `enc` without testing it has undefined
behaviour when an encoder returned `NULL`; such a run is the outer `none`. -/

/-- Body of the `for` loop of `ExecuteAuthenticationDetails` for one property, on the pair
of the session record and `authResult`. -/
def authDetailsStep (st : YLENGStream × Int) (prop : AMFObjectProperty) : YLENGStream × Int :=
  let name := AMFProp_GetName prop
  if AVMATCH name av_locatedInBroadcastTerritory then
    ({ st.1 with locatedInBroadcastTerritory := AMFProp_GetBoolean prop }, st.2)
  else if AVMATCH name av_randomAuth then
    (st.1, authResponse (AMFProp_GetNumber prop))
  else if AVMATCH name av_tvFeeActivated then
    ({ st.1 with tvFeeActivated := AMFProp_GetBoolean prop }, st.2)
  else st

/-- Model of `ExecuteAuthenticationDetails(r, proplist, yle)`: the returned `int` as a
`Bool`, the transport and the session record afterwards. -/
def ExecuteAuthenticationDetails (r : RTMP) (proplist : AMFObject) (yle : YLENGStream) :
    Option (Bool × RTMP × YLENGStream) :=
  let st := proplist.foldl authDetailsStep (yle, -1)
  let yle1 := st.1
  let authResult := st.2
  if authResult ≠ -1 then
    let pend := 128
    let body := RTMP_MAX_HEADER_SIZE
    let enc := body + 1
    match AMF_EncodeString enc pend av_authenticateRandomNumber with
    | none => none
    | some enc1 =>
      match AMF_EncodeNumber enc1 pend with
      | none => none
      | some enc2 =>
        let enc3 := enc2 + 1
        match AMF_EncodeNumber enc3 pend with
        | none => none
        | some enc4 =>
          let packet : RTMPPacket :=
            { m_nChannel := 3, m_headerType := 0, m_packetType := 17, m_nInfoField2 := 0,
              m_hasAbsTimestamp := 0, m_nBodySize := enc4 - body,
              m_body := [AMFItem.byte 0, AMFItem.string av_authenticateRandomNumber,
                AMFItem.number 0, AMFItem.byte AMF_NULL, AMFItem.number authResult] }
          let res := RTMP_SendPacket r packet
          some (res.1, res.2, yle1)
  else some (false, r, yle1)

/-- The second argument of `requestData` as `RequestData` builds it with `strcpy` and
`strncat`. -/
def requestPath (r : RTMP) (yle : YLENGStream) : AVal :=
  if r.Link.lFlags &&& RTMP_LF_LIVE ≠ 0 then "streams/fi/".toList ++ cstr yle.clipID
  else "/".toList ++ cstr yle.clipID

/-- Model of `RequestData(r, yle)`. -/
def RequestData (r : RTMP) (yle : YLENGStream) : Option (Bool × RTMP) :=
  let pend := 128
  let body := RTMP_MAX_HEADER_SIZE
  let enc := body + 1
  match AMF_EncodeString enc pend av_requestData with
  | none => none
  | some enc1 =>
    match AMF_EncodeNumber enc1 pend with
    | none => none
    | some enc2 =>
      let enc3 := enc2 + 1
      match AMF_EncodeString enc3 pend av_e0 with
      | none => none
      | some enc4 =>
        let clipID := requestPath r yle
        match AMF_EncodeString enc4 pend clipID with
        | none => some (false, r)
        | some enc5 =>
          let packet : RTMPPacket :=
            { m_nChannel := 3, m_headerType := 0, m_packetType := 17, m_nInfoField2 := 0,
              m_hasAbsTimestamp := 0, m_nBodySize := enc5 - body,
              m_body := [AMFItem.byte 0, AMFItem.string av_requestData, AMFItem.number 0,
                AMFItem.byte AMF_NULL, AMFItem.string av_e0, AMFItem.string clipID] }
          some (RTMP_SendPacket r packet)

/-- Model of `ExecuteRandomNumberAuthenticated(r)`. -/
def ExecuteRandomNumberAuthenticated (_r : RTMP) : Bool := true

/-- Model of `ExecuteRPCResult(r, obj, yle, &redirected)`: the returned `int` as a `Bool`,
the transport and the session record afterwards, and the value left in `*redirected`. -/
def ExecuteRPCResult (r : RTMP) (obj : AMFObject) (yle : YLENGStream) :
    Bool × RTMP × YLENGStream × Bool :=
  let rpcKind := AMFProp_GetString (AMF_GetProp obj 3)
  if !AVMATCH (rpcKind.getD []) av_e0 then (true, r, yle, false)
  else
    let mediaxml_av_val := AMFProp_GetStringVal (AMF_GetProp obj 4)
    match GetXMLNodeContent mediaxml_av_val "url".toList with
    | none => (false, r, yle, false)
    | some playurl =>
      match ParseYLEPlaypath playurl with
      | none => (false, r, yle, false)
      | some (parsedHost, _parsedApp, parsedPlaypath) =>
        let r1 : RTMP := { r with Link := { r.Link with playpath := parsedPlaypath } }
        let hostChanged := !AVMATCH parsedHost r1.Link.hostname
        let r2 : RTMP :=
          if hostChanged then { r1 with Link := { r1.Link with hostname := parsedHost } } else r1
        let yle1 : YLENGStream :=
          match GetXMLNodeContent mediaxml_av_val "tvpayOnly".toList with
          | some tvpayOnly =>
            { yle with tvFeeRequired := if tvpayOnly ≠ "false".toList then 1 else 0 }
          | none => yle
        let res := RTMP_SendCreateStream r2
        (res.1, res.2, yle1, hostChanged)

/-! ## The dispatcher: the two callbacks -/

/-- Model of `ConnectYLE(r, methodInvoked, obj, ctx)`; `ctx = none` is the `NULL` context. -/
def ConnectYLE (r : RTMP) (methodInvoked : AVal) (_obj : AMFObject) (ctx : Option YLENGStream) :
    RTMPCallbackResult × RTMP × Option YLENGStream :=
  match ctx with
  | none => (RTMP_CB_NOT_HANDLED, r, none)
  | some yle =>
    if !AVMATCH methodInvoked av_connect || yle.yleAuth == 0 then
      (RTMP_CB_NOT_HANDLED, r, some yle)
    else (RTMP_CB_SUCCESS, (RTMP_SendServerBW r).2, some yle)

/-- Model of `ExecuteInvokedMethod(r, method, obj, ctx)`. -/
def ExecuteInvokedMethod (r : RTMP) (method : AVal) (obj : AMFObject)
    (ctx : Option YLENGStream) : Option (RTMPCallbackResult × RTMP × Option YLENGStream) :=
  match ctx with
  | none => some (RTMP_CB_NOT_HANDLED, r, none)
  | some yle =>
    if yle.yleAuth == 0 then some (RTMP_CB_NOT_HANDLED, r, some yle)
    else if AVMATCH method av_authenticationDetails then
      let list := AMFProp_GetObject (AMF_GetProp obj 3)
      match ExecuteAuthenticationDetails r list yle with
      | none => none
      | some (ok, r1, yle1) =>
        if !ok then some (RTMP_CB_ERROR_STOP, r1, some yle1)
        else if yle1.clipID.length ≠ 0 then
          match RequestData r1 yle1 with
          | none => none
          | some (ok2, r2) =>
            if !ok2 then some (RTMP_CB_ERROR_STOP, r2, some yle1)
            else some (RTMP_CB_SUCCESS, r2, some yle1)
        else
          let res := RTMP_SendCreateStream r1
          if !res.1 then some (RTMP_CB_ERROR_STOP, res.2, some yle1)
          else some (RTMP_CB_SUCCESS, res.2, some yle1)
    else if AVMATCH method av_randomNumberAuthenticated then
      let _ := ExecuteRandomNumberAuthenticated r
      some (RTMP_CB_SUCCESS, r, some yle)
    else if AVMATCH method av_rpcResult then
      let res := ExecuteRPCResult r obj yle
      if !res.1 then some (RTMP_CB_ERROR_STOP, res.2.1, some res.2.2.1)
      else some (RTMP_CB_SUCCESS, res.2.1, some res.2.2.1)
    else if AVMATCH method av_rpcError then some (RTMP_CB_ERROR_STOP, r, some yle)
    else some (RTMP_CB_NOT_HANDLED, r, some yle)

/-! ## Sample replies and sessions used to instantiate the results -/

/-- An unnamed string argument that is followed by a NUL in memory. -/
def strArg (s : AVal) : AMFObjectProperty := .string [] s [] ⟨0, true⟩

/-- An unnamed null argument. -/
def nullArg : AMFObjectProperty := .null [] ⟨0, false⟩

/-- The reply of scenario A: category `e0` and a document with `url` and `tvpayOnly`. -/
def scenarioA : AMFObject :=
  [strArg "rpcResult".toList, .number [] 0, nullArg, strArg "e0".toList,
   strArg
     "<url>rtmp://cdn.example/app/mp4:clip123.mp4</url><tvpayOnly>false</tvpayOnly>".toList]

/-- A transport connected to `origin.example` that has sent nothing yet. -/
def transport0 : RTMP := ⟨⟨"origin.example".toList, [], 0⟩, [], true⟩

/-- A session with authentication on, clip `1234` and `tvFeeRequired` set. -/
def session0 : YLENGStream := ⟨1, "1234".toList, 1, 0, 0⟩

/-- A reply with category `e0` whose document has no `url` field. -/
def replyNoUrl : AMFObject :=
  [strArg "rpcResult".toList, .number [] 0, nullArg, strArg "e0".toList,
   strArg "<tvpayOnly>false</tvpayOnly>".toList]

/-- A reply with category `e1` that carries the document of scenario A. -/
def replyOtherTag : AMFObject :=
  [strArg "rpcResult".toList, .number [] 0, nullArg, strArg "e1".toList,
   strArg
     "<url>rtmp://cdn.example/app/mp4:clip123.mp4</url><tvpayOnly>false</tvpayOnly>".toList]

/-! ## Sizes of encoded bodies, and the response on a 32-bit `long` -/

/-- Number of bytes `AMF_EncodeString` and `AMF_EncodeNumber` write for an item: a type byte,
then a 2-byte length (4-byte from 65536 characters on) and the characters, or the 8 bytes
of the double. -/
def amfItemSize : AMFItem → Nat
  | .byte _ => 1
  | .string s => if s.length < 65536 then 1 + 2 + s.length else 1 + 4 + s.length
  | .number _ => 1 + 8

/-- Encoded length of a packet body. -/
def amfBodySize (items : List AMFItem) : Nat := (items.map amfItemSize).sum

/-- The packet `ExecuteAuthenticationDetails` hands to `RTMP_SendPacket` for the response
`authResult`. -/
def authPacket (authResult : Int) : RTMPPacket :=
  { m_nChannel := 3, m_headerType := 0, m_packetType := 17, m_nInfoField2 := 0,
    m_hasAbsTimestamp := 0, m_nBodySize := 47,
    m_body := [AMFItem.byte 0, AMFItem.string av_authenticateRandomNumber,
      AMFItem.number 0, AMFItem.byte AMF_NULL, AMFItem.number authResult] }

/-- The packet `RequestData` hands to `RTMP_SendPacket` for the location string `path`. -/
def requestPacket (path : AVal) : RTMPPacket :=
  { m_nChannel := 3, m_headerType := 0, m_packetType := 17, m_nInfoField2 := 0,
    m_hasAbsTimestamp := 0, m_nBodySize := 33 + path.length,
    m_body := [AMFItem.byte 0, AMFItem.string av_requestData, AMFItem.number 0,
      AMFItem.byte AMF_NULL, AMFItem.string av_e0, AMFItem.string path] }

/-- Value of a mathematical integer stored in a 32-bit two's complement integer. -/
def wrapInt32 (x : Int) : Int := (x + 2 ^ 31) % 2 ^ 32 - 2 ^ 31

/-- The values a 32-bit signed integer can hold. -/
def inInt32 (x : Int) : Prop := -(2 ^ 31) ≤ x ∧ x < 2 ^ 31

instance (x : Int) : Decidable (inInt32 x) := by unfold inInt32; infer_instance

/-- The expression `((long)c + 447537687) % 6834253` where `long` is 32 bits wide: the sum
wraps modulo `2 ^ 32`, the remainder truncates towards zero. -/
def authResponse32 (c : Int) : Int := Int.tmod (wrapInt32 (c + 447537687)) 6834253

/-- A reply with category `e0` whose document has a `url` field and a `tvpayOnly` field with
content `v`. -/
def replyTvpay (v : List Char) : AMFObject :=
  [strArg "rpcResult".toList, .number [] 0, nullArg, strArg "e0".toList,
   strArg ("<url>rtmp://h/a/p</url><tvpayOnly>".toList ++ v ++ "</tvpayOnly>".toList)]

/-- A reply with category `e0` whose document has a `url` field only. -/
def replyUrlOnly : AMFObject :=
  [strArg "rpcResult".toList, .number [] 0, nullArg, strArg "e0".toList,
   strArg "<url>rtmp://h/a/p</url>".toList]

/-- An `authenticationDetails` invocation whose property list is `props`. -/
def authInvoke (props : AMFObject) : AMFObject :=
  [strArg "authenticationDetails".toList, .number [] 0, nullArg, .object [] props ⟨0, false⟩]

/-- A transport on a live link: `RTMP_LF_LIVE` is set in `lFlags`. -/
def transportLive : RTMP := ⟨⟨"origin.example".toList, [], 2⟩, [], true⟩

/-- A text of 257 bytes that starts with `start`, filled up with blanks. -/
def padTo257 (start : List Char) : List Char :=
  start ++ List.replicate (257 - start.length) ' '

/-- An unnamed string argument `s` as it lies in a packet buffer in front of a further
string argument `next` of 257 bytes: behind `s` come the type byte 2 and the length bytes
1, 1 of the next argument, none of them NUL, and then its text. -/
def strArgBefore (s next : AVal) : AMFObjectProperty :=
  .string [] s ([Char.ofNat 2, Char.ofNat 1, Char.ofNat 1] ++ next) ⟨0, true⟩

/-- A reply with category `e0` whose document `<clip></clip>` has no `url` field and whose
sixth argument is a text of 257 bytes that starts with a `url` field. -/
def replyUrlBehind : AMFObject :=
  [strArg "rpcResult".toList, .number [] 0, nullArg, strArg "e0".toList,
   strArgBefore "<clip></clip>".toList
     (padTo257 "<url>rtmp://cdn.example/app/mp4:x</url>".toList),
   strArg (padTo257 "<url>rtmp://cdn.example/app/mp4:x</url>".toList)]

/-- A reply with category `e0` whose document has a `url` field and no `tvpayOnly` field,
and whose sixth argument is a text of 257 bytes that starts with a `tvpayOnly` field. -/
def replyTvpayBehind : AMFObject :=
  [strArg "rpcResult".toList, .number [] 0, nullArg, strArg "e0".toList,
   strArgBefore "<url>rtmp://h/a/p</url>".toList
     (padTo257 "<tvpayOnly>false</tvpayOnly>".toList),
   strArg (padTo257 "<tvpayOnly>false</tvpayOnly>".toList)]

/-! ## Facts about the string primitives -/

theorem strchr_eq_none_iff (s : List Char) (c : Char) : strchr s c = none ↔ c ∉ s := by
  induction s with
  | nil => simp [strchr]
  | cons x t ih =>
    by_cases h : x = c
    · simp [strchr, h]
    · have h2 : ¬ c = x := fun e => h e.symm
      simp [strchr, h, ih, h2]

theorem strchr_append_of_not_mem (pre r : List Char) (c : Char) (h : c ∉ pre) :
    strchr (pre ++ c :: r) c = some (c :: r) := by
  induction pre with
  | nil => simp [strchr]
  | cons x t ih =>
    have hx : x ≠ c := fun e => h (by simp [e])
    have ht : c ∉ t := fun e => h (by simp [e])
    simp [strchr, hx, ih ht]

theorem strchr_eq_some (s q : List Char) (c : Char) (h : strchr s c = some q) :
    ∃ pre r, s = pre ++ c :: r ∧ q = c :: r ∧ c ∉ pre := by
  induction s with
  | nil => simp [strchr] at h
  | cons x t ih =>
    by_cases hx : x = c
    · subst hx
      simp [strchr] at h
      exact ⟨[], t, by simp, h.symm, by simp⟩
    · simp [strchr, hx] at h
      obtain ⟨pre, r, h1, h2, h3⟩ := ih h
      refine ⟨x :: pre, r, by simp [h1], h2, ?_⟩
      simp [h3]; exact fun e => hx e.symm

theorem strstr_eq_some (hay n q : List Char) (h : strstr hay n = some q) :
    ∃ pre, hay = pre ++ q ∧ n <+: q ∧
      ∀ pre2 rest2, hay = pre2 ++ rest2 → n <+: rest2 → pre <+: pre2 := by
  induction hay with
  | nil =>
    by_cases hn : n = []
    · simp [strstr, hn] at h
      subst h
      exact ⟨[], by simp, by simp [hn], fun _ _ _ _ => List.nil_prefix⟩
    · simp [strstr, hn] at h
  | cons x t ih =>
    by_cases hp : n <+: x :: t
    · simp [strstr, hp] at h
      subst h
      exact ⟨[], by simp, hp, fun _ _ _ _ => List.nil_prefix⟩
    · simp [strstr, hp] at h
      obtain ⟨pre, h1, h2, h3⟩ := ih h
      refine ⟨x :: pre, by simp [h1], h2, ?_⟩
      intro pre2 rest2 e hpre
      cases pre2 with
      | nil => simp at e; subst e; exact absurd hpre hp
      | cons y pre2 =>
        simp at e
        obtain ⟨e1, e2⟩ := e
        subst e1
        have := h3 pre2 rest2 e2 hpre
        exact (List.cons_prefix_cons).mpr ⟨rfl, this⟩

theorem strstr_eq_none_iff (hay n : List Char) : strstr hay n = none ↔ ¬ n <:+: hay := by
  induction hay with
  | nil =>
    by_cases hn : n = []
    · simp [strstr, hn]
    · simp [strstr, hn]
  | cons x t ih =>
    by_cases hp : n <+: x :: t
    · simp [strstr, hp]
      exact hp.isInfix
    · simp [strstr, hp, ih]
      constructor
      · intro h1 h2
        rcases List.infix_cons_iff.mp h2 with h3 | h3
        · exact hp h3
        · exact h1 h3
      · intro h1 h2
        exact h1 (List.infix_cons h2)

/-- An occurrence of `n` that is the only one in `pre ++ n` is the one `strstr` finds. -/
theorem strstr_first (pre n post : List Char) (hn : n ≠ [])
    (h : ¬ n <:+: (pre ++ n).dropLast) : strstr (pre ++ n ++ post) n = some (n ++ post) := by
  cases hq : strstr (pre ++ n ++ post) n with
  | none =>
    exfalso
    rw [strstr_eq_none_iff] at hq
    exact hq ⟨pre, post, rfl⟩
  | some q =>
    obtain ⟨pre1, h1, h2, h3⟩ := strstr_eq_some _ _ _ hq
    have h4 : pre1 <+: pre := h3 pre (n ++ post) (by simp) (List.prefix_append n post)
    obtain ⟨s, hs⟩ := h4
    subst hs
    cases s with
    | nil =>
      simp at h1
      rw [← h1]
    | cons x s =>
      exfalso
      apply h
      have e : q = x :: s ++ n ++ post := by
        have : pre1 ++ (x :: s ++ n ++ post) = pre1 ++ q := by rw [← h1]; simp
        exact (List.append_cancel_left this).symm
      have hd : (pre1 ++ x :: s ++ n).dropLast = pre1 ++ (x :: s ++ n.dropLast) := by
        rw [List.append_assoc pre1, List.dropLast_append_of_ne_nil, List.dropLast_append_of_ne_nil] <;> simp [hn]
      rw [hd]
      have h5 : x :: s ++ n.dropLast <+: q := by
        rw [e]
        obtain ⟨l, hl⟩ : n.dropLast <+: n := List.dropLast_prefix n
        refine ⟨l ++ post, ?_⟩
        rw [← List.append_assoc, List.append_assoc (x :: s), hl]
      have h6 : n <+: x :: s ++ n.dropLast := by
        refine List.prefix_of_prefix_length_le h2 h5 ?_
        have : 0 < n.length := List.length_pos.mpr hn
        simp
        omega
      obtain ⟨l, hl⟩ := h6
      exact ⟨pre1, l, by rw [List.append_assoc, hl]⟩

/-! ## The challenge response (C1) -/

theorem wrapLong_of_inLong (x : Int) (h : inLong x) : wrapLong x = x := by
  unfold inLong at h
  unfold wrapLong
  rw [Int.emod_eq_of_lt] <;> omega

theorem tmod_neg_left (a b : Int) : Int.tmod (-a) b = -(Int.tmod a b) := by
  rw [Int.tmod_def, Int.tmod_def, Int.neg_tdiv]
  rw [Int.mul_neg]
  omega

/-- Claim C1 as stated does not hold: the `long` challenge value `-447537688` gives the
response `-1`, which is negative and differs from `(c + 447537687) mod 6834253`. -/
theorem authResponse_not_always_mod :
    ¬ ∀ c : Int, inLong c →
      authResponse c = (c + 447537687) % 6834253 ∧ 0 ≤ authResponse c ∧
        authResponse c < 6834253 :=
  fun h => absurd (h (-447537688) (by decide)).2.1 (by decide)

/-- Claim C1, amended: for a `long` challenge value `c` whose sum `c + 447537687` does not
overflow, the response is `(c + 447537687) mod 6834253` with `0 ≤ response < 6834253`
when the sum is non-negative, and it is the negated remainder of the negated sum, with
`-6834253 < response ≤ 0`, when the sum is negative. -/
theorem authResponse_spec (c : Int) (hc : inLong c) (hov : c ≤ 2 ^ 63 - 1 - 447537687) :
    (0 ≤ c + 447537687 →
      authResponse c = (c + 447537687) % 6834253 ∧ 0 ≤ authResponse c ∧
        authResponse c < 6834253) ∧
    (c + 447537687 < 0 →
      authResponse c = -((-(c + 447537687)) % 6834253) ∧ -6834253 < authResponse c ∧
        authResponse c ≤ 0) := by
  have hw : wrapLong (c + 447537687) = c + 447537687 := by
    apply wrapLong_of_inLong
    unfold inLong at *
    omega
  unfold authResponse
  rw [hw]
  constructor
  · intro h0
    rw [Int.tmod_eq_emod h0 (by decide)]
    refine ⟨rfl, ?_, ?_⟩
    · exact Int.emod_nonneg _ (by decide)
    · exact Int.emod_lt_of_pos _ (by decide)
  · intro h0
    have e : c + 447537687 = -(-(c + 447537687)) := by omega
    have h1 : (0 : Int) ≤ -(c + 447537687) := by omega
    have h2 : Int.tmod (c + 447537687) 6834253 = -((-(c + 447537687)) % 6834253) := by
      conv => lhs; rw [e]
      rw [tmod_neg_left, Int.tmod_eq_emod h1 (by decide)]
    rw [h2]
    have h3 := Int.emod_nonneg (-(c + 447537687)) (show (6834253 : Int) ≠ 0 by decide)
    have h4 := Int.emod_lt_of_pos (-(c + 447537687)) (show (0 : Int) < 6834253 by decide)
    refine ⟨rfl, ?_, ?_⟩ <;> omega

/-- The amended claim C1 at the challenge value 100: the response is 3311342. -/
theorem authResponse_spec_witness :
    inLong 100 ∧ (100 : Int) ≤ 2 ^ 63 - 1 - 447537687 ∧ (0 : Int) ≤ 100 + 447537687 ∧
      authResponse 100 = 3311342 :=
  ⟨by decide, by decide, by decide,
    ((authResponse_spec 100 (by decide) (by decide)).1 (by decide)).1.trans (by decide)⟩

/-! ## The location parser (C2, C3, C4) -/

/-- The parser on a location whose first `"://"` is followed by `host/app/playpath`. -/
theorem parse_of_strstr (url h a p : List Char) (hh : '/' ∉ h) (ha : '/' ∉ a)
    (hs : strstr url schemeSep = some (schemeSep ++ (h ++ '/' :: (a ++ '/' :: p)))) :
    ParseYLEPlaypath url = some (h, a, p) := by
  unfold ParseYLEPlaypath
  rw [hs]
  have e1 : (schemeSep ++ (h ++ '/' :: (a ++ '/' :: p))).drop 3 = h ++ '/' :: (a ++ '/' :: p) := by
    simp [schemeSep]
  simp only [e1]
  rw [strchr_append_of_not_mem h _ '/' hh]
  simp only [List.drop_succ_cons, List.drop_zero]
  rw [strchr_append_of_not_mem a _ '/' ha]
  simp

/-- Two slashes in a text split it at its first two slashes. -/
theorem split_two_slashes (post : List Char) (h : 2 ≤ post.count '/') :
    ∃ hst a p, post = hst ++ '/' :: (a ++ '/' :: p) ∧ '/' ∉ hst ∧ '/' ∉ a := by
  have m1 : '/' ∈ post := List.count_pos_iff.mp (by omega)
  cases e1 : strchr post '/' with
  | none => exact absurd m1 ((strchr_eq_none_iff _ _).mp e1)
  | some q =>
    obtain ⟨hst, r, h1, -, h3⟩ := strchr_eq_some _ _ _ e1
    have c1 : r.count '/' = post.count '/' - 1 := by
      rw [h1, List.count_append, List.count_eq_zero_of_not_mem h3]
      simp
    have m2 : '/' ∈ r := List.count_pos_iff.mp (by omega)
    cases e2 : strchr r '/' with
    | none => exact absurd m2 ((strchr_eq_none_iff _ _).mp e2)
    | some q2 =>
      obtain ⟨a, p, h4, -, h6⟩ := strchr_eq_some _ _ _ e2
      exact ⟨hst, a, p, by rw [h1, h4], h3, h6⟩

/-- Fewer than two slashes after the first `"://"` make the parser fail. -/
theorem parse_none_of_count (url post : List Char)
    (hs : strstr url schemeSep = some (schemeSep ++ post)) (hc : post.count '/' < 2) :
    ParseYLEPlaypath url = none := by
  unfold ParseYLEPlaypath
  rw [hs]
  have e1 : (schemeSep ++ post).drop 3 = post := by simp [schemeSep]
  simp only [e1]
  cases e2 : strchr post '/' with
  | none => rfl
  | some q =>
    obtain ⟨hst, r, h1, h2, h3⟩ := strchr_eq_some _ _ _ e2
    have c1 : r.count '/' = post.count '/' - 1 := by
      rw [h1, List.count_append, List.count_eq_zero_of_not_mem h3]
      simp
    have m2 : '/' ∉ r := fun m => by
      have := List.count_pos_iff.mpr m
      omega
    subst h2
    simp only [List.drop_succ_cons, List.drop_zero]
    rw [(strchr_eq_none_iff r '/').mpr m2]

/-- What a successful parse says about the location: the text from the first `"://"` on
is `"://" host "/" app "/" playpath`, and host and app have no slash. -/
theorem parse_some_shape (url h a p : List Char) (hp : ParseYLEPlaypath url = some (h, a, p)) :
    strstr url schemeSep = some (schemeSep ++ (h ++ '/' :: (a ++ '/' :: p))) ∧
      '/' ∉ h ∧ '/' ∉ a := by
  unfold ParseYLEPlaypath at hp
  cases e0 : strstr url schemeSep with
  | none => rw [e0] at hp; simp at hp
  | some p0 =>
    rw [e0] at hp
    obtain ⟨pre, -, ⟨post, h2⟩, -⟩ := strstr_eq_some _ _ _ e0
    subst h2
    have e1 : (schemeSep ++ post).drop 3 = post := by simp [schemeSep]
    simp only [e1] at hp
    cases e2 : strchr post '/' with
    | none => rw [e2] at hp; simp at hp
    | some q =>
      rw [e2] at hp
      obtain ⟨hst, r, h1, h2, h3⟩ := strchr_eq_some _ _ _ e2
      subst h2
      simp only [List.drop_succ_cons, List.drop_zero] at hp
      cases e3 : strchr r '/' with
      | none => rw [e3] at hp; simp at hp
      | some q2 =>
        rw [e3] at hp
        obtain ⟨a1, p1, h4, h5, h6⟩ := strchr_eq_some _ _ _ e3
        subst h5
        subst h4
        subst h1
        simp at hp
        obtain ⟨r1, r2, r3⟩ := hp
        subst r1
        subst r2
        subst r3
        exact ⟨rfl, h3, h6⟩

/-- A scheme without a slash puts the first `"://"` right behind it. -/
theorem scheme_no_early_sep (scheme : List Char) (h : '/' ∉ scheme) :
    ¬ schemeSep <:+: (scheme ++ schemeSep).dropLast := by
  intro hin
  have e : (scheme ++ schemeSep).dropLast = scheme ++ [':', '/'] := by
    simp [schemeSep, List.dropLast_append_of_ne_nil]
  rw [e] at hin
  obtain ⟨s, t, hst⟩ := hin
  have hlen := congrArg List.length hst
  simp [schemeSep] at hlen
  -- the second slash of the occurrence lies inside `scheme ++ ":/"`, not at its end
  have hm : (s ++ [':', '/']) <+: scheme ++ [':'] := by
    have p1 : (s ++ [':', '/']) <+: scheme ++ [':', '/'] := by
      refine ⟨'/' :: t, ?_⟩
      rw [← hst]; simp [schemeSep]
    have p2 : scheme ++ [':'] <+: scheme ++ [':', '/'] := ⟨['/'], by simp⟩
    refine List.prefix_of_prefix_length_le p1 p2 ?_
    simp; omega
  have hmem : '/' ∈ scheme ++ [':'] := hm.subset (by simp)
  simp at hmem
  exact h hmem

/-- Claim C2: a location built as `scheme "://" server "/" namespace "/" path`, with no
slash in scheme, server and namespace (so none of them contains `"://"` either) and any
path, parses to exactly `(server, namespace, path)`. -/
theorem parse_build_roundtrip (scheme server ns path : List Char)
    (hscheme : '/' ∉ scheme) (hserver : '/' ∉ server) (hns : '/' ∉ ns) :
    ParseYLEPlaypath (scheme ++ schemeSep ++ server ++ ['/'] ++ ns ++ ['/'] ++ path)
      = some (server, ns, path) := by
  apply parse_of_strstr _ _ _ _ hserver hns
  have := strstr_first scheme schemeSep (server ++ '/' :: (ns ++ '/' :: path))
    (by simp [schemeSep]) (scheme_no_early_sep scheme hscheme)
  simpa using this

/-- Claim C2 at `rtmp://cdn.example/app/mp4:a/b.mp4`, a path with a slash in it. -/
theorem parse_build_roundtrip_witness :
    ('/' ∉ "rtmp".toList ∧ '/' ∉ "cdn.example".toList ∧ '/' ∉ "app".toList) ∧
    ParseYLEPlaypath ("rtmp".toList ++ schemeSep ++ "cdn.example".toList ++ ['/']
        ++ "app".toList ++ ['/'] ++ "mp4:a/b.mp4".toList)
      = some ("cdn.example".toList, "app".toList, "mp4:a/b.mp4".toList) :=
  ⟨by decide, parse_build_roundtrip _ _ _ _ (by decide) (by decide) (by decide)⟩

/-- The occurrence `strstr` returns is the first one: nothing of the needle occurs in the
text in front of it extended by the needle without its last character. -/
theorem strstr_some_first (hay n q : List Char) (hn : n ≠ []) (h : strstr hay n = some q) :
    ∃ pre post, hay = pre ++ n ++ post ∧ q = n ++ post ∧ ¬ n <:+: (pre ++ n).dropLast := by
  obtain ⟨pre, h1, ⟨post, h2⟩, h3⟩ := strstr_eq_some _ _ _ h
  refine ⟨pre, post, by rw [h1, ← h2, List.append_assoc], h2.symm, ?_⟩
  rintro ⟨s, t, hst⟩
  rw [List.dropLast_append_of_ne_nil _ hn] at hst
  have hlen := congrArg List.length hst
  simp at hlen
  have hpos : 0 < n.length := List.length_pos.mpr hn
  have hsplit : n = n.dropLast ++ [n.getLast hn] := (List.dropLast_append_getLast hn).symm
  have hurl : hay = s ++ (n ++ (t ++ [n.getLast hn] ++ post)) := by
    rw [h1, ← h2]
    conv => lhs; rw [hsplit]
    rw [← List.append_assoc, ← List.append_assoc, ← hst]
    simp
  have hp : pre <+: s := h3 s _ hurl (List.prefix_append _ _)
  have := hp.length_le
  omega

/-- Claim C3: the parser fails exactly on the locations without `"://"` and on those in
which the text after the first `"://"` has fewer than two slashes; on every other
location it succeeds. -/
theorem parse_fails_iff (url : List Char) :
    ParseYLEPlaypath url = none ↔
      (¬ schemeSep <:+: url ∨
        ∃ pre post, url = pre ++ schemeSep ++ post ∧
          ¬ schemeSep <:+: (pre ++ schemeSep).dropLast ∧ post.count '/' < 2) := by
  have hsep : schemeSep ≠ [] := by simp [schemeSep]
  constructor
  · intro hnone
    cases e0 : strstr url schemeSep with
    | none => exact Or.inl ((strstr_eq_none_iff _ _).mp e0)
    | some q =>
      right
      obtain ⟨pre, post, h1, h2, h3⟩ := strstr_some_first _ _ _ hsep e0
      refine ⟨pre, post, h1, h3, ?_⟩
      by_contra hc
      obtain ⟨h, a, p, e, hh, ha⟩ := split_two_slashes post (by omega)
      rw [h2, e] at e0
      rw [parse_of_strstr url h a p hh ha e0] at hnone
      exact absurd hnone (by simp)
  · rintro (h | ⟨pre, post, h1, h2, h3⟩)
    · unfold ParseYLEPlaypath
      rw [(strstr_eq_none_iff _ _).mpr h]
    · apply parse_none_of_count url post _ h3
      rw [h1]
      exact strstr_first pre schemeSep post hsep h2

/-- Claim C4 as stated does not hold: `rtmp:////` parses, and all three components are
empty. -/
theorem parse_components_can_be_empty :
    ¬ ∀ url h a p : List Char,
      ParseYLEPlaypath url = some (h, a, p) → h ≠ [] ∧ a ≠ [] ∧ p ≠ [] :=
  fun H => (H "rtmp:////".toList [] [] [] (by decide)).1 rfl

/-- Claim C4, amended: whenever the parser succeeds, the location has the shape
`scheme "://" server "/" namespace "/" path` with the returned components, where server
and namespace have no slash and any of the three may be empty; a location that has not
this shape for any choice of the parts is rejected, and every location that has it is
accepted. -/
theorem parse_succeeds_shape (url : List Char) :
    (∀ h a p, ParseYLEPlaypath url = some (h, a, p) →
      '/' ∉ h ∧ '/' ∉ a ∧
        ∃ pre, url = pre ++ schemeSep ++ h ++ ['/'] ++ a ++ ['/'] ++ p) ∧
    ((¬ ∃ pre h a p, '/' ∉ h ∧ '/' ∉ a ∧
        url = pre ++ schemeSep ++ h ++ ['/'] ++ a ++ ['/'] ++ p) →
      ParseYLEPlaypath url = none) ∧
    ((∃ pre h a p, '/' ∉ h ∧ '/' ∉ a ∧
        url = pre ++ schemeSep ++ h ++ ['/'] ++ a ++ ['/'] ++ p) →
      ParseYLEPlaypath url ≠ none) := by
  have key : ∀ h a p, ParseYLEPlaypath url = some (h, a, p) →
      '/' ∉ h ∧ '/' ∉ a ∧
        ∃ pre, url = pre ++ schemeSep ++ h ++ ['/'] ++ a ++ ['/'] ++ p := by
    intro h a p hp
    obtain ⟨h1, h2, h3⟩ := parse_some_shape url h a p hp
    obtain ⟨pre, e, -, -⟩ := strstr_eq_some _ _ _ h1
    exact ⟨h2, h3, pre, by rw [e]; simp⟩
  refine ⟨key, ?_, ?_⟩
  · intro hno
    cases e : ParseYLEPlaypath url with
    | none => rfl
    | some r =>
      obtain ⟨h, a, p⟩ := r
      obtain ⟨h2, h3, pre, h4⟩ := key h a p e
      exact absurd ⟨pre, h, a, p, h2, h3, h4⟩ hno
  · rintro ⟨pre, h, a, p, -, -, e⟩ hnone
    rcases (parse_fails_iff url).mp hnone with h1 | ⟨pre1, post1, e1, hfirst, hc⟩
    · exact h1 ⟨pre, h ++ ['/'] ++ a ++ ['/'] ++ p, by rw [e]; simp⟩
    · -- the first occurrence is not behind the one of the shape
      have hs := strstr_first pre1 schemeSep post1 (by simp [schemeSep]) hfirst
      rw [← e1] at hs
      obtain ⟨pre2, e2, -, hmin⟩ := strstr_eq_some _ _ _ hs
      have e3 : pre2 = pre1 := by
        have : pre2 ++ (schemeSep ++ post1) = pre1 ++ (schemeSep ++ post1) := by
          rw [← e2, e1]; simp
        exact List.append_cancel_right this
      subst e3
      have hp : pre2 <+: pre :=
        hmin pre (schemeSep ++ (h ++ ['/'] ++ a ++ ['/'] ++ p)) (by rw [e]; simp)
          (List.prefix_append _ _)
      have c1 := hp.sublist.count_le '/'
      have c2 : url.count '/' = pre2.count '/' + 2 + post1.count '/' := by
        rw [e1]; simp [schemeSep, List.count_append, List.count_cons]; omega
      have c3 : url.count '/' = pre.count '/' + 2 + h.count '/' + 1 + a.count '/' + 1
          + p.count '/' := by
        rw [e]; simp [schemeSep, List.count_append, List.count_cons]; omega
      omega

/-- The amended claim C4 at `rtmp:////`, where the three components are empty. -/
theorem parse_succeeds_shape_witness :
    ParseYLEPlaypath "rtmp:////".toList = some ([], [], []) ∧
      ('/' ∉ ([] : List Char) ∧ '/' ∉ ([] : List Char) ∧
        ∃ pre, "rtmp:////".toList = pre ++ schemeSep ++ [] ++ ['/'] ++ [] ++ ['/'] ++ []) :=
  ⟨by decide, (parse_succeeds_shape "rtmp:////".toList).1 [] [] [] (by decide)⟩

/-- Claim C3 at `rtmp://host/onlyapp`: one slash after `"://"`, so the parser fails. -/
theorem parse_fails_iff_witness : ParseYLEPlaypath "rtmp://host/onlyapp".toList = none :=
  (parse_fails_iff "rtmp://host/onlyapp".toList).mpr
    (Or.inr ⟨"rtmp".toList, "host/onlyapp".toList, by decide, by decide, by decide⟩)

/-! ## The field extractor (C5, C6) -/

theorem replaceAmp_entity (r : List Char) :
    replaceAmp (ampEntity ++ r) = '&' :: replaceAmp r := by
  simp [ampEntity, replaceAmp]

theorem replaceAmp_cons_of_no_entity (c : Char) (t : List Char)
    (h : ¬ ampEntity <+: c :: t) : replaceAmp (c :: t) = c :: replaceAmp t := by
  rw [replaceAmp]
  intro rest e1 e2
  apply h
  rw [e1, e2]
  exact ⟨rest, by simp [ampEntity]⟩

theorem replaceAmp_of_strstr_none (p : List Char) (h : strstr p ampEntity = none) :
    replaceAmp p = p := by
  induction p with
  | nil => simp [replaceAmp]
  | cons c t ih =>
    by_cases hp : ampEntity <+: c :: t
    · simp [strstr, hp] at h
    · simp [strstr, hp] at h
      rw [replaceAmp_cons_of_no_entity c t hp, ih h]

/-- One iteration of the unescaping loop seen from the reference replacement. -/
theorem replaceAmp_of_strstr_some (p q : List Char) (h : strstr p ampEntity = some q) :
    ∃ pre r, p = pre ++ q ∧ q = ampEntity ++ r ∧
      replaceAmp p = pre ++ '&' :: replaceAmp r := by
  induction p with
  | nil => simp [strstr, ampEntity] at h
  | cons c t ih =>
    by_cases hp : ampEntity <+: c :: t
    · simp [strstr, hp] at h
      obtain ⟨r, hr⟩ := hp
      subst h
      exact ⟨[], r, by simp, hr.symm, by rw [← hr, replaceAmp_entity]; simp⟩
    · simp [strstr, hp] at h
      obtain ⟨pre, r, h1, h2, h3⟩ := ih h
      refine ⟨c :: pre, r, by simp [h1], h2, ?_⟩
      rw [replaceAmp_cons_of_no_entity c t hp, h3]
      simp

/-- The loop leaves within `p.length + 1` iterations, with the reference replacement of
the unscanned part appended to the part already scanned. -/
theorem unescapeLoop_spec (fuel : Nat) :
    ∀ done p : List Char, p.length < fuel →
      unescapeLoop fuel done p = some (done ++ replaceAmp p) := by
  induction fuel with
  | zero => intro done p h; omega
  | succ fuel ih =>
    intro done p hlen
    unfold unescapeLoop
    cases e : strstr p ampEntity with
    | none => simp [replaceAmp_of_strstr_none p e]
    | some q =>
      obtain ⟨pre, r, h1, h2, h3⟩ := replaceAmp_of_strstr_some p q e
      have hq : q.drop 5 = r := by rw [h2]; simp [ampEntity]
      have hq1 : q.take 1 = ['&'] := by rw [h2]; simp [ampEntity]
      have hpre : p.take (p.length - q.length) = pre := by
        rw [h1]; simp
      have hr : r.length < fuel := by
        have := congrArg List.length h1
        have := congrArg List.length h2
        simp [ampEntity] at *
        omega
      simp only [hq, hq1, hpre]
      rw [ih _ r hr, h3]
      simp

theorem unescapeAmp_eq (c : List Char) : unescapeAmp c = some (replaceAmp c) := by
  unfold unescapeAmp
  rw [unescapeLoop_spec _ [] c (by omega)]
  simp

/-- Claim C5: in a document `pre <n a > c < rest`, where `a` has no `'>'`, `c` has no `'<'`
and `<n` occurs in `pre <n` only at its end, the field `n` is present and its value is
`c` with `"&amp;"` unescaped; it is `c` itself when `c` contains no `"&amp;"`. -/
theorem getXMLNodeContent_wellformed (pre n a c rest : List Char)
    (ha : '>' ∉ a) (hc : '<' ∉ c)
    (hfirst : ¬ ('<' :: n) <:+: (pre ++ '<' :: n).dropLast) :
    GetXMLNodeContent (some (pre ++ ['<'] ++ n ++ a ++ ['>'] ++ c ++ ['<'] ++ rest)) n
        = some (replaceAmp c) ∧
      (¬ ampEntity <:+: c →
        GetXMLNodeContent (some (pre ++ ['<'] ++ n ++ a ++ ['>'] ++ c ++ ['<'] ++ rest)) n
          = some c) := by
  have hs := strstr_first pre ('<' :: n) (a ++ '>' :: (c ++ '<' :: rest)) (by simp) hfirst
  have hdoc : pre ++ ['<'] ++ n ++ a ++ ['>'] ++ c ++ ['<'] ++ rest
      = pre ++ '<' :: n ++ (a ++ '>' :: (c ++ '<' :: rest)) := by simp
  have main : GetXMLNodeContent (some (pre ++ ['<'] ++ n ++ a ++ ['>'] ++ c ++ ['<'] ++ rest)) n
      = some (replaceAmp c) := by
    rw [hdoc]
    unfold GetXMLNodeContent
    simp only [hs]
    have e1 : ('<' :: n ++ (a ++ '>' :: (c ++ '<' :: rest))).drop ('<' :: n).length
        = a ++ '>' :: (c ++ '<' :: rest) := by
      rw [List.drop_left]
    simp only [e1]
    rw [strchr_append_of_not_mem a _ '>' ha]
    simp only [List.drop_succ_cons, List.drop_zero]
    rw [strchr_append_of_not_mem c _ '<' hc]
    have e2 : (c ++ '<' :: rest).take ((c ++ '<' :: rest).length - ('<' :: rest).length) = c := by
      simp
    simp only [e2]
    exact unescapeAmp_eq c
  refine ⟨main, fun hno => ?_⟩
  rw [main, replaceAmp_of_strstr_none c ((strstr_eq_none_iff _ _).mpr hno)]

/-- Claim C5 at the document `<x><url type="a">rtmp://h/a/p</url>` and the field `url`. -/
theorem getXMLNodeContent_wellformed_witness :
    ('>' ∉ " type=\"a\"".toList ∧ '<' ∉ "rtmp://h/a/p".toList ∧
      ¬ ('<' :: "url".toList) <:+: ("<x>".toList ++ '<' :: "url".toList).dropLast) ∧
    GetXMLNodeContent (some ("<x>".toList ++ ['<'] ++ "url".toList ++ " type=\"a\"".toList
        ++ ['>'] ++ "rtmp://h/a/p".toList ++ ['<'] ++ "/url>".toList)) "url".toList
      = some "rtmp://h/a/p".toList :=
  ⟨by decide,
    (getXMLNodeContent_wellformed "<x>".toList "url".toList " type=\"a\"".toList
      "rtmp://h/a/p".toList "/url>".toList (by decide) (by decide) (by decide)).2 (by decide)⟩

/-- Claim C6: the unescaping loop leaves on every content, and its result is the content
with every left-to-right non-overlapping `"&amp;"` replaced by `"&"`: the produced `'&'`
is not scanned again and no other entity changes. -/
theorem unescapeAmp_single_pass (c : List Char) :
    unescapeAmp c = some (replaceAmp c) ∧
      unescapeAmp "A &amp;&amp; B".toList = some "A && B".toList ∧
      unescapeAmp "&amp;amp;".toList = some "&amp;".toList ∧
      unescapeAmp "&lt;".toList = some "&lt;".toList :=
  ⟨unescapeAmp_eq c, by decide, by decide, by decide⟩

/-! ## Unrelated replies and the disabled dispatcher (C9, C10) -/

/-- Claim C9: a reply whose argument 3 is not the string `e0` is ignored whatever its
document: `ExecuteRPCResult` returns success with the transport, the session record and
`redirected` (clear) as they were, and the dispatcher of an authenticated session answers
`RTMP_CB_SUCCESS`. -/
theorem executeRPCResult_unrelated (r : RTMP) (obj : AMFObject) (yle : YLENGStream)
    (htag : AMFProp_GetString (AMF_GetProp obj 3) ≠ some av_e0) :
    ExecuteRPCResult r obj yle = (true, r, yle, false) ∧
      (yle.yleAuth ≠ 0 →
        ExecuteInvokedMethod r av_rpcResult obj (some yle)
          = some (RTMP_CB_SUCCESS, r, some yle)) := by
  have hne : (AMFProp_GetString (AMF_GetProp obj 3)).getD [] ≠ av_e0 := by
    cases e : AMFProp_GetString (AMF_GetProp obj 3) with
    | none => simp [av_e0]
    | some s =>
      rw [e] at htag
      simpa using htag
  have main : ExecuteRPCResult r obj yle = (true, r, yle, false) := by
    unfold ExecuteRPCResult
    simp [AVMATCH, hne]
  refine ⟨main, fun hauth => ?_⟩
  unfold ExecuteInvokedMethod
  simp [hauth, main, AVMATCH, av_rpcResult, av_authenticationDetails,
    av_randomNumberAuthenticated]

/-- Claim C9 at a reply with category `e1` and a valid `url` field (scenario E). -/
theorem executeRPCResult_unrelated_witness :
    AMFProp_GetString (AMF_GetProp replyOtherTag 3) ≠ some av_e0 ∧
      ExecuteRPCResult transport0 replyOtherTag session0
        = (true, transport0, session0, false) :=
  ⟨by decide, (executeRPCResult_unrelated transport0 replyOtherTag session0 (by decide)).1⟩

/-- Claim C10: with `yleAuth = 0` both callbacks answer `RTMP_CB_NOT_HANDLED` for every
message name and every argument list, and leave the transport (nothing sent) and the
session record as they were. -/
theorem auth_disabled_not_handled (r : RTMP) (method : AVal) (obj : AMFObject)
    (yle : YLENGStream) (h : yle.yleAuth = 0) :
    ConnectYLE r method obj (some yle) = (RTMP_CB_NOT_HANDLED, r, some yle) ∧
      ExecuteInvokedMethod r method obj (some yle)
        = some (RTMP_CB_NOT_HANDLED, r, some yle) := by
  constructor
  · unfold ConnectYLE
    simp [h]
  · unfold ExecuteInvokedMethod
    simp [h]

/-- Claim C10 at the `rpcResult` of scenario A with authentication off (scenario D). -/
theorem auth_disabled_not_handled_witness :
    ({ session0 with yleAuth := 0 } : YLENGStream).yleAuth = 0 ∧
      ExecuteInvokedMethod transport0 av_rpcResult scenarioA
          (some { session0 with yleAuth := 0 })
        = some (RTMP_CB_NOT_HANDLED, transport0, some { session0 with yleAuth := 0 }) :=
  ⟨rfl, (auth_disabled_not_handled transport0 av_rpcResult scenarioA
    { session0 with yleAuth := 0 } rfl).2⟩

/-! ## The authentication step (C11, C12, C20) -/

/-- What `ExecuteAuthenticationDetails` does, given the outcome of its property loop: the
three encoding steps always succeed, and the packet goes out exactly when `authResult`
is not `-1`. -/
theorem executeAuthenticationDetails_eq (r : RTMP) (proplist : AMFObject) (yle : YLENGStream) :
    ExecuteAuthenticationDetails r proplist yle =
      if (proplist.foldl authDetailsStep (yle, -1)).2 ≠ -1 then
        some (r.sendOk,
          { r with sent := r.sent ++
            [Sent.packet (authPacket (proplist.foldl authDetailsStep (yle, -1)).2)] },
          (proplist.foldl authDetailsStep (yle, -1)).1)
      else some (false, r, (proplist.foldl authDetailsStep (yle, -1)).1) := by
  have e1 : AMF_EncodeString (RTMP_MAX_HEADER_SIZE + 1) 128 av_authenticateRandomNumber
      = some 46 := by decide
  have e2 : AMF_EncodeNumber 46 128 = some 55 := by decide
  have e3 : AMF_EncodeNumber (55 + 1) 128 = some 65 := by decide
  unfold ExecuteAuthenticationDetails
  simp only [e1, e2, e3]
  split
  · simp [RTMP_SendPacket, authPacket, RTMP_MAX_HEADER_SIZE]
  · rfl

/-- A property list without `randomAuth` leaves `authResult` as it was. -/
theorem authDetails_fold_no_challenge (proplist : AMFObject)
    (h : ∀ p ∈ proplist, AMFProp_GetName p ≠ av_randomAuth) :
    ∀ st : YLENGStream × Int, (proplist.foldl authDetailsStep st).2 = st.2 := by
  induction proplist with
  | nil => intro st; rfl
  | cons p t ih =>
    intro st
    have hp : AMFProp_GetName p ≠ av_randomAuth := h p (by simp)
    have ht : ∀ q ∈ t, AMFProp_GetName q ≠ av_randomAuth := fun q hq => h q (by simp [hq])
    rw [List.foldl_cons, ih ht]
    unfold authDetailsStep
    simp only [AVMATCH]
    split
    · rfl
    · simp [hp]
      split <;> rfl

/-- The property loop never touches `clipID` and `yleAuth`. -/
theorem authDetails_fold_keeps (proplist : AMFObject) :
    ∀ st : YLENGStream × Int,
      (proplist.foldl authDetailsStep st).1.clipID = st.1.clipID ∧
        (proplist.foldl authDetailsStep st).1.yleAuth = st.1.yleAuth := by
  induction proplist with
  | nil => intro st; exact ⟨rfl, rfl⟩
  | cons p t ih =>
    intro st
    rw [List.foldl_cons]
    obtain ⟨h1, h2⟩ := ih (authDetailsStep st p)
    rw [h1, h2]
    unfold authDetailsStep
    simp only
    split
    · exact ⟨rfl, rfl⟩
    · split
      · exact ⟨rfl, rfl⟩
      · split <;> exact ⟨rfl, rfl⟩

/-- Claim C11 as stated does not hold: on the empty property list, which has no
`randomAuth`, `ExecuteAuthenticationDetails` does not return success. -/
theorem auth_without_challenge_not_success :
    ¬ ∀ (r : RTMP) (proplist : AMFObject) (yle : YLENGStream),
      (∀ p ∈ proplist, AMFProp_GetName p ≠ av_randomAuth) →
        ∃ r1 yle1, ExecuteAuthenticationDetails r proplist yle = some (true, r1, yle1) := by
  intro H
  obtain ⟨r1, yle1, h⟩ := H transport0 [] session0 (by simp)
  have e : ExecuteAuthenticationDetails transport0 [] session0
      = some (false, transport0, session0) := by decide
  rw [e] at h
  simp at h

/-- Claim C11, amended: on a property list without `randomAuth` the step sends no message
and returns failure, with the transport as it was and the session record as the property
loop left it; the dispatcher of an authenticated session, on an `authenticationDetails`
invocation that carries such a list, answers `RTMP_CB_ERROR_STOP`. -/
theorem auth_without_challenge_fails (r : RTMP) (proplist : AMFObject) (yle : YLENGStream)
    (h : ∀ p ∈ proplist, AMFProp_GetName p ≠ av_randomAuth) :
    ExecuteAuthenticationDetails r proplist yle
        = some (false, r, (proplist.foldl authDetailsStep (yle, -1)).1) ∧
      (yle.yleAuth ≠ 0 → ∀ obj : AMFObject, AMFProp_GetObject (AMF_GetProp obj 3) = proplist →
        ExecuteInvokedMethod r av_authenticationDetails obj (some yle)
          = some (RTMP_CB_ERROR_STOP, r, some (proplist.foldl authDetailsStep (yle, -1)).1)) := by
  have main : ExecuteAuthenticationDetails r proplist yle
      = some (false, r, (proplist.foldl authDetailsStep (yle, -1)).1) := by
    rw [executeAuthenticationDetails_eq, authDetails_fold_no_challenge proplist h]
    simp
  refine ⟨main, fun hauth obj hobj => ?_⟩
  unfold ExecuteInvokedMethod
  simp only [hobj, main]
  simp [hauth, AVMATCH]

/-- The amended claim C11 at a list that holds only `tvFeeActivated = true`. -/
theorem auth_without_challenge_fails_witness :
    (∀ p ∈ [AMFObjectProperty.boolean av_tvFeeActivated true],
        AMFProp_GetName p ≠ av_randomAuth) ∧
      ExecuteAuthenticationDetails transport0
          [AMFObjectProperty.boolean av_tvFeeActivated true] session0
        = some (false, transport0, { session0 with tvFeeActivated := 1 }) :=
  ⟨by decide,
    (auth_without_challenge_fails transport0 [AMFObjectProperty.boolean av_tvFeeActivated true]
      session0 (by decide)).1⟩

/-- Claim C12 at the challenge `-447537688`: the response is `-1`, the value that marks
"no challenge seen", so the step sends nothing and returns failure although the list
holds a `randomAuth` property; the challenge `100` next to it is answered with
`authenticateRandomNumber(3311342)`. -/
theorem auth_sentinel_collision :
    ExecuteAuthenticationDetails transport0
        [AMFObjectProperty.number av_randomAuth (-447537688)] session0
      = some (false, transport0, session0) ∧
    ExecuteAuthenticationDetails transport0
        [AMFObjectProperty.number av_randomAuth 100] session0
      = some (true, { transport0 with sent := [Sent.packet (authPacket 3311342)] }, session0) := by
  constructor <;> decide

/-- Claim C20: whatever the response, the body of `authenticateRandomNumber` takes 47
bytes, which is within the 128 bytes of `pbuf` less the header reserve; no encoding step
of `ExecuteAuthenticationDetails` returns `NULL`, so the step always returns, and every
packet it sends carries the body size 47. -/
theorem auth_message_never_overflows (r : RTMP) (proplist : AMFObject) (yle : YLENGStream)
    (v : Int) :
    amfBodySize (authPacket v).m_body = 47 ∧
      (authPacket v).m_nBodySize = 47 ∧
      RTMP_MAX_HEADER_SIZE + 47 ≤ 128 ∧
      AMF_EncodeString (RTMP_MAX_HEADER_SIZE + 1) 128 av_authenticateRandomNumber = some 46 ∧
      AMF_EncodeNumber 46 128 = some 55 ∧
      AMF_EncodeNumber (55 + 1) 128 = some 65 ∧
      (∃ res, ExecuteAuthenticationDetails r proplist yle = some res ∧
        (res.2.1.sent = r.sent ∨
          ∃ w, res.2.1.sent = r.sent ++ [Sent.packet (authPacket w)])) := by
  refine ⟨?_, rfl, by decide, by decide, by decide, by decide, ?_⟩
  · simp [amfBodySize, authPacket, amfItemSize, av_authenticateRandomNumber]
  rw [executeAuthenticationDetails_eq]
  split
  · exact ⟨_, rfl, Or.inr ⟨_, rfl⟩⟩
  · exact ⟨_, rfl, Or.inl rfl⟩

/-- The response to the last `randomAuth` property of a list is what the property loop
leaves in `authResult`; when it is not `-1`, exactly one packet goes out, the message
`authenticateRandomNumber` with that response. -/
theorem auth_with_challenge_sends (r : RTMP) (pre post : AMFObject) (p : AMFObjectProperty)
    (yle : YLENGStream) (hp : AMFProp_GetName p = av_randomAuth)
    (hpost : ∀ q ∈ post, AMFProp_GetName q ≠ av_randomAuth)
    (hne : authResponse (AMFProp_GetNumber p) ≠ -1) :
    ExecuteAuthenticationDetails r (pre ++ p :: post) yle
      = some (r.sendOk,
          { r with sent := r.sent ++
            [Sent.packet (authPacket (authResponse (AMFProp_GetNumber p)))] },
          ((pre ++ p :: post).foldl authDetailsStep (yle, -1)).1) := by
  have hfold : ((pre ++ p :: post).foldl authDetailsStep (yle, -1)).2
      = authResponse (AMFProp_GetNumber p) := by
    rw [List.foldl_append, List.foldl_cons, authDetails_fold_no_challenge post hpost]
    unfold authDetailsStep
    simp only [hp]
    have d1 : AVMATCH av_randomAuth av_locatedInBroadcastTerritory = false := by decide
    have d2 : AVMATCH av_randomAuth av_randomAuth = true := by decide
    simp [d1, d2]
  rw [executeAuthenticationDetails_eq, hfold]
  simp [hne]

/-! ## The response on a 32-bit `long` (C17) -/

theorem wrapInt32_of_inInt32 (x : Int) (h : inInt32 x) : wrapInt32 x = x := by
  unfold inInt32 at h
  unfold wrapInt32
  rw [Int.emod_eq_of_lt] <;> omega

/-- Claim C17 as stated does not hold: for the 32-bit challenge value `2147483647` the sum
wraps to a negative number and the 32-bit response `-5051218` differs from the exact
one, `4839447`. -/
theorem authResponse32_differs :
    ¬ ∀ c : Int, inInt32 c → authResponse32 c = Int.tmod (c + 447537687) 6834253 :=
  fun h => absurd (h 2147483647 (by decide)) (by decide)

/-- Claim C17, amended: for a 32-bit challenge value `c` with `c ≤ 2^31 - 1 - 447537687`
(that is `c ≤ 1699945960`, so the sum fits 32 bits) the 32-bit evaluation gives the
response of exact integer arithmetic, which is also the response of the 64-bit `long`. -/
theorem authResponse32_exact (c : Int) (hc : inInt32 c) (hsum : c ≤ 2 ^ 31 - 1 - 447537687) :
    authResponse32 c = Int.tmod (c + 447537687) 6834253 ∧ authResponse32 c = authResponse c := by
  unfold inInt32 at hc
  have h32 : wrapInt32 (c + 447537687) = c + 447537687 := by
    apply wrapInt32_of_inInt32
    unfold inInt32
    omega
  have h64 : wrapLong (c + 447537687) = c + 447537687 := by
    apply wrapLong_of_inLong
    unfold inLong
    omega
  unfold authResponse32 authResponse
  rw [h32, h64]
  exact ⟨rfl, rfl⟩

/-- The amended claim C17 at the largest admitted challenge value, `1699945960`. -/
theorem authResponse32_exact_witness :
    inInt32 1699945960 ∧ (1699945960 : Int) ≤ 2 ^ 31 - 1 - 447537687 ∧
      authResponse32 1699945960 = authResponse 1699945960 :=
  ⟨by decide, by decide, (authResponse32_exact 1699945960 (by decide) (by decide)).2⟩

/-! ## The parsed components as views of the location (C19) -/

/-- Claim C19: when the parser succeeds with `(server, ns, path)`, the location is
`pre "://" server "/" ns "/" path` where `pre` is the text in front of the first `"://"`
(no `"://"` occurs in `pre` extended by `":/"`); server and namespace have no slash and
the path runs to the end of the location. -/
theorem parse_components_reconstruct (u server ns path : List Char)
    (h : ParseYLEPlaypath u = some (server, ns, path)) :
    ∃ pre, u = pre ++ schemeSep ++ server ++ ['/'] ++ ns ++ ['/'] ++ path ∧
      ¬ schemeSep <:+: (pre ++ schemeSep).dropLast ∧ '/' ∉ server ∧ '/' ∉ ns := by
  obtain ⟨h1, h2, h3⟩ := parse_some_shape u server ns path h
  obtain ⟨pre, post, e1, e2, hfirst⟩ := strstr_some_first _ _ _ (by simp [schemeSep]) h1
  have e3 : post = server ++ '/' :: (ns ++ '/' :: path) := (List.append_cancel_left e2).symm
  exact ⟨pre, by rw [e1, e3]; simp, hfirst, h2, h3⟩

/-- Claim C19 at `rtmp://cdn.example/app/mp4:a/b.mp4`. -/
theorem parse_components_reconstruct_witness :
    ParseYLEPlaypath "rtmp://cdn.example/app/mp4:a/b.mp4".toList
        = some ("cdn.example".toList, "app".toList, "mp4:a/b.mp4".toList) ∧
      ∃ pre, "rtmp://cdn.example/app/mp4:a/b.mp4".toList
          = pre ++ schemeSep ++ "cdn.example".toList ++ ['/'] ++ "app".toList ++ ['/']
            ++ "mp4:a/b.mp4".toList ∧
        ¬ schemeSep <:+: (pre ++ schemeSep).dropLast ∧ '/' ∉ "cdn.example".toList ∧
          '/' ∉ "app".toList :=
  ⟨by decide, parse_components_reconstruct _ _ _ _ (by decide)⟩

/-! ## The descriptor request (C13, C16) -/

theorem cstr_of_no_nul (a : AVal) (h : Char.ofNat 0 ∉ a) : cstr a = a := by
  unfold cstr
  rw [List.takeWhile_eq_self_iff]
  intro c hc
  have : c ≠ Char.ofNat 0 := fun e => h (e ▸ hc)
  simpa using this

/-- What `RequestData` does: the fixed part of the body always fits, the location string
is accepted by `AMF_EncodeString` exactly when it has at most 75 characters, and then the
packet goes out. -/
theorem requestData_eq (r : RTMP) (yle : YLENGStream) :
    RequestData r yle =
      if (requestPath r yle).length ≤ 75 then
        some (r.sendOk,
          { r with sent := r.sent ++ [Sent.packet (requestPacket (requestPath r yle))] })
      else some (false, r) := by
  have e1 : AMF_EncodeString (RTMP_MAX_HEADER_SIZE + 1) 128 av_requestData = some 33 := by
    decide
  have e2 : AMF_EncodeNumber 33 128 = some 42 := by decide
  have e3 : AMF_EncodeString (42 + 1) 128 av_e0 = some 48 := by decide
  unfold RequestData
  simp only [e1, e2, e3]
  by_cases h : (requestPath r yle).length ≤ 75
  · have e4 : AMF_EncodeString 48 128 (requestPath r yle)
        = some (48 + 1 + 2 + (requestPath r yle).length) := by
      unfold AMF_EncodeString
      rw [if_neg (by omega), if_pos (by omega)]
    simp only [e4, if_pos h]
    simp only [RTMP_SendPacket, requestPacket, RTMP_MAX_HEADER_SIZE]
    have e5 : 48 + 1 + 2 + (requestPath r yle).length - 18
        = 33 + (requestPath r yle).length := by omega
    rw [e5]
  · have e4 : AMF_EncodeString 48 128 (requestPath r yle) = none := by
      unfold AMF_EncodeString
      rw [if_pos (by omega)]
    simp only [e4, if_neg h]

/-- The authentication step leaves the content identifier, the authentication flag, the
link fields and the send result of the transport as they were. -/
theorem executeAuthenticationDetails_keeps (r r1 : RTMP) (proplist : AMFObject)
    (yle yle1 : YLENGStream) (ok : Bool)
    (h : ExecuteAuthenticationDetails r proplist yle = some (ok, r1, yle1)) :
    yle1.clipID = yle.clipID ∧ yle1.yleAuth = yle.yleAuth ∧ r1.Link = r.Link ∧
      r1.sendOk = r.sendOk := by
  rw [executeAuthenticationDetails_eq] at h
  obtain ⟨k1, k2⟩ := authDetails_fold_keeps proplist (yle, -1)
  split at h
  · simp only [Option.some.injEq, Prod.mk.injEq] at h
    obtain ⟨-, h2, h3⟩ := h
    subst h2
    subst h3
    exact ⟨k1, k2, rfl, rfl⟩
  · simp only [Option.some.injEq, Prod.mk.injEq] at h
    obtain ⟨-, h2, h3⟩ := h
    subst h2
    subst h3
    exact ⟨k1, k2, rfl, rfl⟩

/-- Claim C13, amended: for a content identifier without NUL whose location string has at
most 75 characters (an identifier of at most 64 characters on a live link, of at most 74
otherwise), `RequestData` hands exactly one packet to the transport: reserved byte, the
name `requestData`, the number 0, a null marker, the string `e0` and the string
`streams/fi/<id>` on a live link, `/<id>` otherwise. -/
theorem requestData_shape (r : RTMP) (yle : YLENGStream)
    (hnul : Char.ofNat 0 ∉ yle.clipID)
    (hfit : (if r.Link.lFlags &&& RTMP_LF_LIVE ≠ 0 then 11 else 1) + yle.clipID.length ≤ 75) :
    ∃ path packet,
      path = (if r.Link.lFlags &&& RTMP_LF_LIVE ≠ 0 then "streams/fi/".toList ++ yle.clipID
        else "/".toList ++ yle.clipID) ∧
      packet.m_body = [AMFItem.byte 0, AMFItem.string "requestData".toList, AMFItem.number 0,
        AMFItem.byte AMF_NULL, AMFItem.string "e0".toList, AMFItem.string path] ∧
      RequestData r yle = some (r.sendOk, { r with sent := r.sent ++ [Sent.packet packet] }) := by
  have hp : requestPath r yle
      = (if r.Link.lFlags &&& RTMP_LF_LIVE ≠ 0 then "streams/fi/".toList ++ yle.clipID
        else "/".toList ++ yle.clipID) := by
    unfold requestPath
    rw [cstr_of_no_nul _ hnul]
  have hlen : (requestPath r yle).length ≤ 75 := by
    rw [hp]
    split
    · rename_i hl
      rw [if_pos hl] at hfit
      simp only [List.length_append]
      have : "streams/fi/".toList.length = 11 := by decide
      omega
    · rename_i hl
      rw [if_neg hl] at hfit
      simp only [List.length_append]
      have : "/".toList.length = 1 := by decide
      omega
  refine ⟨_, requestPacket (requestPath r yle), rfl, ?_, ?_⟩
  · rw [← hp]
    rfl
  · rw [requestData_eq, if_pos hlen]

/-- The amended claim C13 at the clip `1234` on an on-demand link. -/
theorem requestData_shape_witness :
    (Char.ofNat 0 ∉ session0.clipID ∧
      (if transport0.Link.lFlags &&& RTMP_LF_LIVE ≠ 0 then 11 else 1)
        + session0.clipID.length ≤ 75) ∧
    ∃ path packet,
      path = (if transport0.Link.lFlags &&& RTMP_LF_LIVE ≠ 0
        then "streams/fi/".toList ++ session0.clipID else "/".toList ++ session0.clipID) ∧
      packet.m_body = [AMFItem.byte 0, AMFItem.string "requestData".toList, AMFItem.number 0,
        AMFItem.byte AMF_NULL, AMFItem.string "e0".toList, AMFItem.string path] ∧
      RequestData transport0 session0
        = some (transport0.sendOk,
            { transport0 with sent := transport0.sent ++ [Sent.packet packet] }) :=
  ⟨by decide, requestData_shape transport0 session0 (by decide) (by decide)⟩

/-- Claim C16 as stated does not hold: with a content identifier of 75 characters on an
on-demand link the encoded message takes 109 bytes, which fit the 110 bytes behind the
header reserve, and yet `RequestData` returns failure and sends nothing. -/
theorem requestData_rejects_fitting_message :
    ¬ ∀ (r : RTMP) (yle : YLENGStream),
      amfBodySize (requestPacket (requestPath r yle)).m_body ≤ 128 - RTMP_MAX_HEADER_SIZE →
        ∃ res, RequestData r yle = some res ∧
          res.2.sent = r.sent ++ [Sent.packet (requestPacket (requestPath r yle))] := by
  intro H
  obtain ⟨res, h1, h2⟩ :=
    H transport0 { session0 with clipID := List.replicate 75 'a' } (by decide)
  have e : RequestData transport0 { session0 with clipID := List.replicate 75 'a' }
      = some (false, transport0) := by decide
  rw [e] at h1
  simp only [Option.some.injEq] at h1
  subst h1
  simp [transport0] at h2

/-- Claim C16, amended: `AMF_EncodeString` asks for room for a 4-byte length in front of
every string, so `RequestData` returns failure and sends nothing exactly when the location
string has more than 75 characters, which covers every message that would not fit the
110 bytes behind the header reserve (and the dispatcher then stops the session); with at
most 75 characters exactly one packet is sent, and its body size is the encoded length
of its body. -/
theorem requestData_overflow (r : RTMP) (yle : YLENGStream) :
    (75 < (requestPath r yle).length → RequestData r yle = some (false, r)) ∧
    (128 - RTMP_MAX_HEADER_SIZE < amfBodySize (requestPacket (requestPath r yle)).m_body →
      75 < (requestPath r yle).length) ∧
    ((requestPath r yle).length ≤ 75 →
      RequestData r yle = some (r.sendOk,
          { r with sent := r.sent ++ [Sent.packet (requestPacket (requestPath r yle))] }) ∧
        (requestPacket (requestPath r yle)).m_nBodySize
          = amfBodySize (requestPacket (requestPath r yle)).m_body) ∧
    (∀ (r0 : RTMP) (yle0 : YLENGStream) (obj : AMFObject),
      yle0.yleAuth ≠ 0 → yle0.clipID ≠ [] →
      ExecuteAuthenticationDetails r0 (AMFProp_GetObject (AMF_GetProp obj 3)) yle0
        = some (true, r, yle) →
      75 < (requestPath r yle).length →
      ExecuteInvokedMethod r0 av_authenticationDetails obj (some yle0)
        = some (RTMP_CB_ERROR_STOP, r, some yle)) := by
  have hsize : ∀ path : AVal, path.length ≤ 77 →
      amfBodySize (requestPacket path).m_body = 33 + path.length := by
    intro path hp
    have : path.length < 65536 := by omega
    simp [amfBodySize, requestPacket, amfItemSize, av_requestData, av_e0, this]
    omega
  refine ⟨?_, ?_, ?_, ?_⟩
  · intro h
    rw [requestData_eq, if_neg (by omega)]
  · intro h
    by_contra hc
    have := hsize (requestPath r yle) (by omega)
    simp only [RTMP_MAX_HEADER_SIZE] at h
    omega
  · intro h
    refine ⟨by rw [requestData_eq, if_pos h], ?_⟩
    rw [hsize _ (by omega)]
    rfl
  · intro r0 yle0 obj hauth hclip hstep hlong
    obtain ⟨k1, -, -, -⟩ := executeAuthenticationDetails_keeps _ _ _ _ _ _ hstep
    have hreq : RequestData r yle = some (false, r) := by
      rw [requestData_eq, if_neg (by omega)]
    have hlen : yle.clipID.length ≠ 0 := by
      rw [k1]
      exact fun e => hclip (List.length_eq_zero.mp e)
    unfold ExecuteInvokedMethod
    simp only [hstep, hreq]
    simp [hauth, AVMATCH, hlen]

/-- The amended claim C16 at a content identifier of 75 characters on an on-demand link:
the message would take 109 bytes and is refused. -/
theorem requestData_overflow_witness :
    75 < (requestPath transport0 { session0 with clipID := List.replicate 75 'a' }).length ∧
      RequestData transport0 { session0 with clipID := List.replicate 75 'a' }
        = some (false, transport0) :=
  ⟨by decide,
    (requestData_overflow transport0 { session0 with clipID := List.replicate 75 'a' }).1
      (by decide)⟩

/-! ## The policy table (C15) -/

/-- The reference replacement only returns characters of its argument. -/
theorem mem_of_mem_replaceAmp (x : Char) :
    ∀ (k : Nat) (c : List Char), c.length ≤ k → x ∈ replaceAmp c → x ∈ c := by
  intro k
  induction k with
  | zero =>
    intro c hk hx
    have : c = [] := List.length_eq_zero.mp (by omega)
    subst this
    simp [replaceAmp] at hx
  | succ k ih =>
    intro c hk hx
    cases c with
    | nil => simp [replaceAmp] at hx
    | cons y t =>
      by_cases hp : ampEntity <+: y :: t
      · obtain ⟨rest, hr⟩ := hp
        rw [← hr, replaceAmp_entity] at hx
        rw [← hr]
        have hlen := congrArg List.length hr
        simp [ampEntity] at hlen
        rcases List.mem_cons.mp hx with h1 | h1
        · subst h1
          simp [ampEntity]
        · have := ih rest (by simp at hk; omega) h1
          simp [this]
      · rw [replaceAmp_cons_of_no_entity y t hp] at hx
        rcases List.mem_cons.mp hx with h1 | h1
        · subst h1
          simp
        · have := ih t (by simp at hk; omega) h1
          simp [this]

/-- The extractor behind the first occurrence of the tag: the result is decided by the
text `post` that follows the occurrence. -/
theorem getXMLNodeContent_of_strstr (doc n post : List Char)
    (hs : strstr doc ('<' :: n) = some ('<' :: n ++ post)) :
    GetXMLNodeContent (some doc) n =
      match strchr post '>' with
      | none => none
      | some gt =>
        match strchr (gt.drop 1) '<' with
        | none => none
        | some pend =>
          some (replaceAmp ((gt.drop 1).take ((gt.drop 1).length - pend.length))) := by
  unfold GetXMLNodeContent
  simp only [hs]
  have e1 : ('<' :: n ++ post).drop ('<' :: n).length = post := by
    rw [List.drop_left]
  simp only [e1]
  cases strchr post '>' with
  | none => rfl
  | some gt =>
    simp only []
    cases strchr (gt.drop 1) '<' with
    | none => rfl
    | some pend =>
      simp only []
      exact unescapeAmp_eq _

/-- Claim C18: the extractor returns absent exactly when the document is `NULL`, or `<n`
does not occur in it, or no `'>'` follows the first occurrence of `<n`, or no `'<'`
follows the first `'>'` behind that occurrence; a present value has no `'<'`.  The tag is
matched as a literal prefix: for `url`, `<urls>x</urls><url>y</url>` gives `x`, and
`<url>abc` gives absent. -/
theorem getXMLNodeContent_absent_iff (xmldoc : Option (List Char)) (n : List Char) :
    (GetXMLNodeContent xmldoc n = none ↔
      (xmldoc = none ∨ ∃ doc, xmldoc = some doc ∧
        (¬ ('<' :: n) <:+: doc ∨
          ∃ pre post, doc = pre ++ '<' :: n ++ post ∧
            ¬ ('<' :: n) <:+: (pre ++ '<' :: n).dropLast ∧
            ('>' ∉ post ∨
              ∃ a rest, post = a ++ '>' :: rest ∧ '>' ∉ a ∧ '<' ∉ rest)))) ∧
    (∀ v, GetXMLNodeContent xmldoc n = some v → '<' ∉ v) ∧
    GetXMLNodeContent (some "<urls>x</urls><url>y</url>".toList) "url".toList
      = some "x".toList ∧
    GetXMLNodeContent (some "<url>abc".toList) "url".toList = none := by
  have htag : ('<' :: n) ≠ [] := by simp
  refine ⟨⟨?_, ?_⟩, ?_, by decide, by decide⟩
  · -- absent implies one of the four reasons
    intro hnone
    cases xmldoc with
    | none => exact Or.inl rfl
    | some doc =>
      refine Or.inr ⟨doc, rfl, ?_⟩
      cases hs : strstr doc ('<' :: n) with
      | none => exact Or.inl ((strstr_eq_none_iff _ _).mp hs)
      | some q =>
        obtain ⟨pre, post, e1, e2, hfirst⟩ := strstr_some_first _ _ _ htag hs
        refine Or.inr ⟨pre, post, e1, hfirst, ?_⟩
        rw [e2] at hs
        rw [getXMLNodeContent_of_strstr doc n post hs] at hnone
        cases hg : strchr post '>' with
        | none => exact Or.inl ((strchr_eq_none_iff _ _).mp hg)
        | some gt =>
          obtain ⟨a, rest, e3, e4, ha⟩ := strchr_eq_some _ _ _ hg
          refine Or.inr ⟨a, rest, e3, ha, ?_⟩
          rw [hg] at hnone
          simp only [] at hnone
          subst e4
          simp only [List.drop_succ_cons, List.drop_zero] at hnone
          cases hl : strchr rest '<' with
          | none => exact (strchr_eq_none_iff _ _).mp hl
          | some pend =>
            rw [hl] at hnone
            simp at hnone
  · -- each of the four reasons gives absent
    rintro (h | ⟨doc, h, hdoc⟩)
    · subst h
      rfl
    · subst h
      rcases hdoc with h1 | ⟨pre, post, e1, hfirst, h2⟩
      · unfold GetXMLNodeContent
        simp only [(strstr_eq_none_iff _ _).mpr h1]
      · have hs := strstr_first pre ('<' :: n) post htag hfirst
        rw [← e1] at hs
        rw [getXMLNodeContent_of_strstr doc n post hs]
        rcases h2 with h3 | ⟨a, rest, e3, ha, hrest⟩
        · rw [(strchr_eq_none_iff _ _).mpr h3]
        · rw [e3, strchr_append_of_not_mem a rest '>' ha]
          simp only [List.drop_succ_cons, List.drop_zero]
          rw [(strchr_eq_none_iff _ _).mpr hrest]
  · -- a present value has no '<'
    intro v hv
    cases xmldoc with
    | none => simp [GetXMLNodeContent] at hv
    | some doc =>
      cases hs : strstr doc ('<' :: n) with
      | none =>
        unfold GetXMLNodeContent at hv
        simp [hs] at hv
      | some q =>
        obtain ⟨pre, post, e1, e2, -⟩ := strstr_some_first _ _ _ htag hs
        rw [e2] at hs
        rw [getXMLNodeContent_of_strstr doc n post hs] at hv
        cases hg : strchr post '>' with
        | none => rw [hg] at hv; simp at hv
        | some gt =>
          rw [hg] at hv
          simp only [] at hv
          cases hl : strchr (gt.drop 1) '<' with
          | none => rw [hl] at hv; simp at hv
          | some pend =>
            rw [hl] at hv
            simp only [Option.some.injEq] at hv
            obtain ⟨c, rest, e5, e6, hc⟩ := strchr_eq_some _ _ _ hl
            have e7 : (gt.drop 1).take ((gt.drop 1).length - pend.length) = c := by
              rw [e5, e6]
              simp
            rw [e7] at hv
            subst hv
            exact fun hm => hc (mem_of_mem_replaceAmp '<' c.length c (Nat.le_refl _) hm)

/-- Claim C18 at `<urls>x</urls><url>y</url>` and the field `url`: the value `x` is
present and has no `'<'`. -/
theorem getXMLNodeContent_absent_iff_witness :
    GetXMLNodeContent (some "<urls>x</urls><url>y</url>".toList) "url".toList
        = some "x".toList ∧ '<' ∉ "x".toList :=
  ⟨by decide,
    (getXMLNodeContent_absent_iff (some "<urls>x</urls><url>y</url>".toList) "url".toList).2.1
      "x".toList (by decide)⟩

/-! ## The descriptor response on a document inside the packet buffer (C7, C8, C14) -/

/-- Bytes behind a text only lengthen the C string read from it. -/
theorem cstr_append (s b : List Char) : ∃ e, cstr (s ++ b) = cstr s ++ e := by
  induction s with
  | nil => exact ⟨cstr b, by simp [cstr]⟩
  | cons x t ih =>
    obtain ⟨e, he⟩ := ih
    unfold cstr at he ⊢
    by_cases hx : x = Char.ofNat 0
    · exact ⟨[], by simp [List.takeWhile_cons, hx]⟩
    · refine ⟨e, ?_⟩
      simp [List.takeWhile_cons, hx]
      simpa using he

/-- A field the extractor finds in a document is found, with the same value, in every
longer text that starts with the document. -/
theorem getXMLNodeContent_append (d e n v : List Char)
    (h : GetXMLNodeContent (some d) n = some v) :
    GetXMLNodeContent (some (d ++ e)) n = some v := by
  have htag : ('<' :: n) ≠ [] := by simp
  cases hs : strstr d ('<' :: n) with
  | none =>
    unfold GetXMLNodeContent at h
    simp [hs] at h
  | some q =>
    obtain ⟨pre, post, e1, e2, hfirst⟩ := strstr_some_first _ _ _ htag hs
    rw [e2] at hs
    rw [getXMLNodeContent_of_strstr d n post hs] at h
    cases hg : strchr post '>' with
    | none => rw [hg] at h; simp at h
    | some gt =>
      rw [hg] at h
      simp only [] at h
      obtain ⟨a, rest, e3, e4, ha⟩ := strchr_eq_some _ _ _ hg
      subst e4
      simp only [List.drop_succ_cons, List.drop_zero] at h
      cases hl : strchr rest '<' with
      | none => rw [hl] at h; simp at h
      | some pend =>
        rw [hl] at h
        simp only [Option.some.injEq] at h
        obtain ⟨c, r2, e5, e6, hc⟩ := strchr_eq_some _ _ _ hl
        have e7 : rest.take (rest.length - pend.length) = c := by
          rw [e5, e6]
          simp
        rw [e7] at h
        have hs2 : strstr (d ++ e) ('<' :: n) = some ('<' :: n ++ (post ++ e)) := by
          have := strstr_first pre ('<' :: n) (post ++ e) htag hfirst
          rw [e1]
          simpa using this
        rw [getXMLNodeContent_of_strstr (d ++ e) n (post ++ e) hs2]
        have e8 : post ++ e = a ++ '>' :: (rest ++ e) := by rw [e3]; simp
        rw [e8, strchr_append_of_not_mem a _ '>' ha]
        simp only [List.drop_succ_cons, List.drop_zero]
        have e9 : rest ++ e = c ++ '<' :: (r2 ++ e) := by rw [e5]; simp
        rw [e9, strchr_append_of_not_mem c _ '<' hc]
        simp only [Option.some.injEq]
        rw [← h]
        congr 1
        simp

/-- A field of the document itself, the `av_len` bytes of the string, is what the code
finds when it scans from `av_val`. -/
theorem getXMLNodeContent_val_of_document (prop : AMFObjectProperty) (n v : List Char)
    (h : GetXMLNodeContent ((AMFProp_GetString prop).map cstr) n = some v) :
    GetXMLNodeContent (AMFProp_GetStringVal prop) n = some v := by
  cases prop with
  | string nm s behind u =>
    obtain ⟨e, he⟩ := cstr_append s behind
    simp only [AMFProp_GetString, Option.map_some'] at h
    simp only [AMFProp_GetStringVal, he]
    exact getXMLNodeContent_append _ e n v h
  | number nm x => simp [AMFProp_GetString, GetXMLNodeContent] at h
  | boolean nm x => simp [AMFProp_GetString, GetXMLNodeContent] at h
  | object nm o u => simp [AMFProp_GetString, GetXMLNodeContent] at h
  | null nm u => simp [AMFProp_GetString, GetXMLNodeContent] at h
  | invalid => simp [AMFProp_GetString, GetXMLNodeContent] at h

/-- Claim C7: on a reply with category `e0` whose `url` field is extracted and parses to
`(server, ns, path)`, the transport's playpath becomes `path`; when `server` differs from
the transport's hostname the hostname becomes `server` and `redirected` is set, else the
hostname stays and `redirected` is clear.  Scenario A gives playpath `mp4:clip123.mp4`,
server `cdn.example`, namespace `app` and `tvFeeRequired = 0`. -/
theorem executeRPCResult_success (r : RTMP) (obj : AMFObject) (yle : YLENGStream)
    (playurl server ns path : List Char)
    (htag : AMFProp_GetString (AMF_GetProp obj 3) = some av_e0)
    (hurl : GetXMLNodeContent ((AMFProp_GetString (AMF_GetProp obj 4)).map cstr) "url".toList
      = some playurl)
    (hparse : ParseYLEPlaypath playurl = some (server, ns, path)) :
    (ExecuteRPCResult r obj yle).2.1.Link.playpath = path ∧
    (server ≠ r.Link.hostname →
      (ExecuteRPCResult r obj yle).2.1.Link.hostname = server ∧
        (ExecuteRPCResult r obj yle).2.2.2 = true) ∧
    (server = r.Link.hostname →
      (ExecuteRPCResult r obj yle).2.1.Link.hostname = r.Link.hostname ∧
        (ExecuteRPCResult r obj yle).2.2.2 = false) ∧
    ParseYLEPlaypath "rtmp://cdn.example/app/mp4:clip123.mp4".toList
      = some ("cdn.example".toList, "app".toList, "mp4:clip123.mp4".toList) ∧
    ExecuteRPCResult transport0 scenarioA session0
      = (true, ⟨⟨"cdn.example".toList, "mp4:clip123.mp4".toList, 0⟩, [Sent.createStream], true⟩,
          { session0 with tvFeeRequired := 0 }, true) := by
  have hval := getXMLNodeContent_val_of_document _ _ _ hurl
  refine ⟨?_, ?_, ?_, by decide, by decide⟩
  · unfold ExecuteRPCResult
    simp only [htag, hval, hparse]
    by_cases h : server = r.Link.hostname <;>
      simp [AVMATCH, RTMP_SendCreateStream, h]
  · intro h
    unfold ExecuteRPCResult
    simp only [htag, hval, hparse]
    simp [AVMATCH, RTMP_SendCreateStream, h]
  · intro h
    unfold ExecuteRPCResult
    simp only [htag, hval, hparse]
    simp [AVMATCH, RTMP_SendCreateStream, h]

/-- Claim C7 at scenario A, sent to a transport connected to another server. -/
theorem executeRPCResult_success_witness :
    (AMFProp_GetString (AMF_GetProp scenarioA 3) = some av_e0 ∧
      GetXMLNodeContent ((AMFProp_GetString (AMF_GetProp scenarioA 4)).map cstr) "url".toList
        = some "rtmp://cdn.example/app/mp4:clip123.mp4".toList ∧
      ParseYLEPlaypath "rtmp://cdn.example/app/mp4:clip123.mp4".toList
        = some ("cdn.example".toList, "app".toList, "mp4:clip123.mp4".toList)) ∧
    (ExecuteRPCResult transport0 scenarioA session0).2.1.Link.playpath
      = "mp4:clip123.mp4".toList :=
  ⟨by decide,
    (executeRPCResult_success transport0 scenarioA session0
      "rtmp://cdn.example/app/mp4:clip123.mp4".toList "cdn.example".toList "app".toList
      "mp4:clip123.mp4".toList (by decide) (by decide) (by decide)).1⟩

/-- What holds of the failure path: when the C string the code scans from `av_val` has no
extractable `url` field, or one the parser rejects, `ExecuteRPCResult` returns failure with
the transport, the session record and `redirected` (clear) as they were, and the
dispatcher of an authenticated session answers `RTMP_CB_ERROR_STOP`. -/
theorem executeRPCResult_failure_of_scan (r : RTMP) (obj : AMFObject) (yle : YLENGStream)
    (htag : AMFProp_GetString (AMF_GetProp obj 3) = some av_e0)
    (hbad : GetXMLNodeContent (AMFProp_GetStringVal (AMF_GetProp obj 4)) "url".toList = none ∨
      ∃ playurl,
        GetXMLNodeContent (AMFProp_GetStringVal (AMF_GetProp obj 4)) "url".toList
          = some playurl ∧ ParseYLEPlaypath playurl = none) :
    ExecuteRPCResult r obj yle = (false, r, yle, false) ∧
      (yle.yleAuth ≠ 0 →
        ExecuteInvokedMethod r av_rpcResult obj (some yle)
          = some (RTMP_CB_ERROR_STOP, r, some yle)) := by
  have main : ExecuteRPCResult r obj yle = (false, r, yle, false) := by
    unfold ExecuteRPCResult
    rcases hbad with h | ⟨playurl, h1, h2⟩
    · simp only [htag, h]
      simp [AVMATCH]
    · simp only [htag, h1, h2]
      simp [AVMATCH]
  refine ⟨main, fun hauth => ?_⟩
  unfold ExecuteInvokedMethod
  simp [hauth, main, AVMATCH, av_rpcResult, av_authenticationDetails,
    av_randomNumberAuthenticated]

set_option maxRecDepth 100000 in
/-- Claim C8 at a reply whose document `<clip></clip>` has no `url` field and is followed
in the packet buffer by a sixth argument that starts with
`<url>rtmp://cdn.example/app/mp4:x</url>`: the scan from `av_val` runs on behind the
document, finds that field, and `ExecuteRPCResult` succeeds, sets playpath and hostname
of the transport and `redirected`; the dispatcher answers `RTMP_CB_SUCCESS`. -/
theorem executeRPCResult_scans_behind_document :
    AMFProp_GetString (AMF_GetProp replyUrlBehind 3) = some av_e0 ∧
    GetXMLNodeContent ((AMFProp_GetString (AMF_GetProp replyUrlBehind 4)).map cstr)
      "url".toList = none ∧
    ExecuteRPCResult transport0 replyUrlBehind session0
      = (true, ⟨⟨"cdn.example".toList, "mp4:x".toList, 0⟩, [Sent.createStream], true⟩,
          session0, true) ∧
    ExecuteInvokedMethod transport0 av_rpcResult replyUrlBehind (some session0)
      = some (RTMP_CB_SUCCESS,
          ⟨⟨"cdn.example".toList, "mp4:x".toList, 0⟩, [Sent.createStream], true⟩,
          some session0) := by
  refine ⟨by decide, by decide, by decide, by decide⟩

/-- What holds of the entitlement field: on a reply with category `e0` whose scanned C
string gives a `url` field that parses, `tvFeeRequired` is left as it was when the scan
from `av_val` finds no `tvpayOnly` field, and a field found with content `v` sets it to 1
when `v` is not the text `false` and to 0 when it is; a `tvpayOnly` field of the document
itself is the one the scan finds. -/
theorem tvpayOnly_of_scan (r : RTMP) (obj : AMFObject) (yle : YLENGStream)
    (playurl server ns path : List Char)
    (htag : AMFProp_GetString (AMF_GetProp obj 3) = some av_e0)
    (hurl : GetXMLNodeContent (AMFProp_GetStringVal (AMF_GetProp obj 4)) "url".toList
      = some playurl)
    (hparse : ParseYLEPlaypath playurl = some (server, ns, path)) :
    (GetXMLNodeContent (AMFProp_GetStringVal (AMF_GetProp obj 4)) "tvpayOnly".toList = none →
      (ExecuteRPCResult r obj yle).2.2.1 = yle) ∧
    (∀ v, GetXMLNodeContent (AMFProp_GetStringVal (AMF_GetProp obj 4)) "tvpayOnly".toList
        = some v →
      (ExecuteRPCResult r obj yle).2.2.1
          = { yle with tvFeeRequired := if v = "false".toList then 0 else 1 } ∧
        ((ExecuteRPCResult r obj yle).2.2.1.tvFeeRequired ≠ 0 ↔ v ≠ "false".toList)) ∧
    (∀ v, GetXMLNodeContent ((AMFProp_GetString (AMF_GetProp obj 4)).map cstr)
        "tvpayOnly".toList = some v →
      (ExecuteRPCResult r obj yle).2.2.1
          = { yle with tvFeeRequired := if v = "false".toList then 0 else 1 }) ∧
    (ExecuteRPCResult transport0 (replyTvpay "False".toList)
        { session0 with tvFeeRequired := 0 }).2.2.1.tvFeeRequired = 1 ∧
    (ExecuteRPCResult transport0 (replyTvpay [])
        { session0 with tvFeeRequired := 0 }).2.2.1.tvFeeRequired = 1 ∧
    (ExecuteRPCResult transport0 (replyTvpay " false".toList)
        { session0 with tvFeeRequired := 0 }).2.2.1.tvFeeRequired = 1 ∧
    (ExecuteRPCResult transport0 (replyTvpay "false".toList) session0).2.2.1.tvFeeRequired = 0 ∧
    (ExecuteRPCResult transport0 replyUrlOnly session0).2.2.1.tvFeeRequired = 1 ∧
    (ExecuteRPCResult transport0 replyUrlOnly
        { session0 with tvFeeRequired := 0 }).2.2.1.tvFeeRequired = 0 := by
  have set_of : ∀ v, GetXMLNodeContent (AMFProp_GetStringVal (AMF_GetProp obj 4))
      "tvpayOnly".toList = some v →
      (ExecuteRPCResult r obj yle).2.2.1
        = { yle with tvFeeRequired := if v = "false".toList then 0 else 1 } := by
    intro v hv
    unfold ExecuteRPCResult
    simp only [htag, hurl, hparse, hv]
    by_cases hf : v = "false".toList <;> simp [AVMATCH, hf]
  refine ⟨?_, ?_, ?_, by decide, by decide, by decide, by decide, by decide, by decide⟩
  · intro hnone
    unfold ExecuteRPCResult
    simp only [htag, hurl, hparse, hnone]
    simp [AVMATCH]
  · intro v hv
    refine ⟨set_of v hv, ?_⟩
    rw [set_of v hv]
    by_cases hf : v = "false".toList <;> simp [hf]
  · intro v hv
    exact set_of v (getXMLNodeContent_val_of_document _ _ _ hv)

set_option maxRecDepth 100000 in
/-- Claim C14 at a reply whose document `<url>rtmp://h/a/p</url>` has no `tvpayOnly` field
and is followed in the packet buffer by a sixth argument that starts with
`<tvpayOnly>false</tvpayOnly>`: the first scan finds the `url` field of the document, the
second scan runs on behind the document and finds `false`, and `tvFeeRequired`, 1
before, is 0 afterwards. -/
theorem tvpayOnly_scans_behind_document :
    AMFProp_GetString (AMF_GetProp replyTvpayBehind 3) = some av_e0 ∧
    GetXMLNodeContent ((AMFProp_GetString (AMF_GetProp replyTvpayBehind 4)).map cstr)
      "url".toList = some "rtmp://h/a/p".toList ∧
    ParseYLEPlaypath "rtmp://h/a/p".toList = some ("h".toList, "a".toList, "p".toList) ∧
    GetXMLNodeContent ((AMFProp_GetString (AMF_GetProp replyTvpayBehind 4)).map cstr)
      "tvpayOnly".toList = none ∧
    session0.tvFeeRequired = 1 ∧
    (ExecuteRPCResult transport0 replyTvpayBehind session0).2.2.1.tvFeeRequired = 0 := by
  refine ⟨by decide, by decide, by decide, by decide, by decide, by decide⟩

/-- Claim C13 as stated does not hold: on a live link a content identifier of 65 characters
gives a location string of 76 characters and a message of 109 bytes, which fits the 110
bytes behind the header reserve, and yet `RequestData` sends no packet. -/
theorem requestData_shape_fails_at_76 :
    ¬ ∀ (r : RTMP) (yle : YLENGStream), Char.ofNat 0 ∉ yle.clipID →
      amfBodySize (requestPacket (requestPath r yle)).m_body ≤ 128 - RTMP_MAX_HEADER_SIZE →
      ∃ path packet,
        path = (if r.Link.lFlags &&& RTMP_LF_LIVE ≠ 0 then "streams/fi/".toList ++ yle.clipID
          else "/".toList ++ yle.clipID) ∧
        packet.m_body = [AMFItem.byte 0, AMFItem.string "requestData".toList,
          AMFItem.number 0, AMFItem.byte AMF_NULL, AMFItem.string "e0".toList,
          AMFItem.string path] ∧
        RequestData r yle
          = some (r.sendOk, { r with sent := r.sent ++ [Sent.packet packet] }) := by
  intro H
  obtain ⟨path, packet, -, -, h⟩ :=
    H transportLive { session0 with clipID := List.replicate 65 'a' } (by decide) (by decide)
  have e : RequestData transportLive { session0 with clipID := List.replicate 65 'a' }
      = some (false, transportLive) := by decide
  rw [e] at h
  simp only [Option.some.injEq, Prod.mk.injEq] at h
  have := congrArg RTMP.sent h.2
  simp [transportLive] at this
end YleDl
